import Mathlib

/-!
Shallow embedding of the insert-tools repository (BCSS Excel-to-API
integration).  The definitions below are translated from
`src/bcss_api_integration.py` and `src/excel_api_tool.py`.

Modelling conventions:
* spreadsheet cells are `CellValue` (string, integer or NaN); numeric cells
  are modelled as integers (int64 columns), Python float-typed cells and
  Unicode digit characters beyond ASCII are outside the modelled domain;
* Python strings are Lean `String`s, `str.lower()` and `str.upper()` are
  modelled on the ASCII range (the Vietnamese literals appearing in the
  source are already lower case in every compared position);
* a Python exception that can escape a function is an `Except` error value;
* `datetime.now()` is an explicit parameter.
-/

/-- Lower-case a string (ASCII case mapping, models Python str.lower). -/
def lowerStr (s : String) : String := String.mk (s.data.map Char.toLower)

/-- Upper-case a string (ASCII case mapping, models Python str.upper). -/
def upperStr (s : String) : String := String.mk (s.data.map Char.toUpper)

/-- Drop whitespace on both ends of a character list. -/
def stripChars (cs : List Char) : List Char :=
  ((cs.dropWhile Char.isWhitespace).reverse.dropWhile Char.isWhitespace).reverse

/-- Models Python str.strip with no argument. -/
def pyStrip (s : String) : String := String.mk (stripChars s.data)

/-- Does the second list start with the first one? -/
def listStartsWith : List Char → List Char → Bool
  | [], _ => true
  | _ :: _, [] => false
  | a :: as, b :: bs => a == b && listStartsWith as bs

/-- Does the second list contain the first as a contiguous sublist? -/
def listContainsSub (needle : List Char) : List Char → Bool
  | [] => listStartsWith needle []
  | c :: rest => listStartsWith needle (c :: rest) || listContainsSub needle rest

/-- Models the Python expression `needle in hay` on strings. -/
def pyIn (needle hay : String) : Bool := listContainsSub needle.data hay.data

/-- Fuel-driven worker for `pyReplace`; the fuel starts at the length of the
list, which suffices since each step consumes at least one character. -/
def replaceGo (needle rep : List Char) : Nat → List Char → List Char
  | 0, cs => cs
  | _ + 1, [] => []
  | fuel + 1, c :: rest =>
    if !needle.isEmpty && listStartsWith needle (c :: rest) then
      rep ++ replaceGo needle rep fuel (List.drop (needle.length - 1) rest)
    else
      c :: replaceGo needle rep fuel rest

/-- Models Python str.replace for a non-empty pattern (left to right,
non-overlapping; the source never calls replace with an empty pattern). -/
def pyReplace (s old new : String) : String :=
  String.mk (replaceGo old.data new.data s.data.length s.data)

/-- Models Python str.isdigit restricted to ASCII digits. -/
def pyIsDigit (s : String) : Bool := !s.data.isEmpty && s.data.all Char.isDigit

/-- Numeric value of a list of ASCII digit characters. -/
def digitsVal (cs : List Char) : Nat :=
  cs.foldl (fun a c => a * 10 + (c.toNat - 48)) 0

deriving instance DecidableEq for Except

/-- Rational number as an unnormalized fraction; stands in for a Python
float.  All values built by the parser have a positive power-of-ten
denominator.  The source never compares floats, so normalization is not
needed. -/
structure PyNum where
  num : Int
  den : Nat
  deriving DecidableEq, Repr

/-- Embed an integer. -/
def PyNum.ofInt (n : Int) : PyNum := ⟨n, 1⟩

/-- Models Python int(float-value): truncation toward zero. -/
def PyNum.trunc (q : PyNum) : Int := q.num.tdiv (q.den : Int)

/-- Optional leading sign of a Python float literal. -/
def parseSign : List Char → Int × List Char
  | [] => (1, [])
  | c :: r =>
    if c == '+' then (1, r)
    else if c == '-' then (-1, r)
    else (1, c :: r)

/-- Exponent part after the e: optional sign then at least one digit. -/
def parseExponent (cs : List Char) : Option (Int × List Char) :=
  let (sgn, r) := parseSign cs
  let ds := r.takeWhile Char.isDigit
  if ds.isEmpty then none
  else some (sgn * (digitsVal ds : Int), r.dropWhile Char.isDigit)

/-- Models Python float(str): optional sign, digits with optional decimal
point and optional exponent, surrounded by optional whitespace.  Returns
none where Python float raises ValueError.  The special literals inf and
nan and underscore separators are outside the modelled domain. -/
def pyFloat (s : String) : Option PyNum :=
  let cs := stripChars s.data
  let (sgn, r0) := parseSign cs
  let ip := r0.takeWhile Char.isDigit
  let r1 := r0.dropWhile Char.isDigit
  let (fp, r2) :=
    match r1 with
    | '.' :: r => (r.takeWhile Char.isDigit, r.dropWhile Char.isDigit)
    | _ => ([], r1)
  if ip.isEmpty && fp.isEmpty then none
  else
    let (ex, r3) :=
      match r2 with
      | 'e' :: r =>
        match parseExponent r with
        | some (e, rr) => (some e, rr)
        | none => (none, r2)
      | 'E' :: r =>
        match parseExponent r with
        | some (e, rr) => (some e, rr)
        | none => (none, r2)
      | _ => (some 0, r2)
    match ex with
    | none => none
    | some e =>
      if r3.isEmpty then
        let mantNum : Int := sgn * ((digitsVal ip) * 10 ^ fp.length + digitsVal fp)
        let mantDen : Nat := 10 ^ fp.length
        if 0 ≤ e then some ⟨mantNum * 10 ^ e.toNat, mantDen⟩
        else some ⟨mantNum, mantDen * 10 ^ (-e).toNat⟩
      else none

/-- One spreadsheet cell: a string, an integer (int64 column) or NaN.
Python float-typed cells are outside the modelled domain. -/
inductive CellValue where
  | cstr (s : String)
  | cint (n : Int)
  | cna
  deriving DecidableEq, Repr

/-- Models Python str() on a cell value. -/
def pyStrCell : CellValue → String
  | .cstr s => s
  | .cint n => toString n
  | .cna => "nan"

/-- Models pandas pd.notna on a cell value. -/
def notna : CellValue → Bool
  | .cna => false
  | _ => true

/-- Models Python float() on a non-NaN cell (guarded by notna at every call
site in the source). -/
def pyFloatCell : CellValue → Option PyNum
  | .cstr s => pyFloat s
  | .cint n => some (PyNum.ofInt n)
  | .cna => none

/-- A note cell from the mapping configuration: a string or NaN.  NaN is
kept separate because Python bool(nan) is True while nan.lower() raises. -/
inductive NoteValue where
  | nstr (s : String)
  | nna
  deriving DecidableEq, Repr

/-- Models Python str() on a note value. -/
def pyStrNote : NoteValue → String
  | .nstr s => s
  | .nna => "nan"

/-- Python truthiness of a note value (an empty string is falsy, NaN is
truthy). -/
def noteTruthy : NoteValue → Bool
  | .nstr s => !s.isEmpty
  | .nna => true

/-- One mapping-configuration entry, as stored in self.mapping_data:
the source-column cell (none models a NaN cell; configuration cells are
modelled as strings) and the note cell. -/
structure MappingEntry where
  excel_mapping : Option String
  notes : NoteValue
  deriving DecidableEq, Repr

/-- The loaded mapping configuration, keyed by BCSS field name (dict with
unique keys, insertion order irrelevant for lookup). -/
abbrev MappingData := List (String × MappingEntry)

/-- Dict lookup in the mapping configuration. -/
def lookupMapping (md : MappingData) (k : String) : Option MappingEntry :=
  match md with
  | [] => none
  | (k₀, e) :: rest => if k₀ == k then some e else lookupMapping rest k

/-- One product row: an ordered mapping from column name to cell value
(pandas Series with unique index labels). -/
abbrev ProductRow := List (String × CellValue)

/-- Membership of a column label in the row index. -/
def rowHas (row : ProductRow) (c : String) : Bool :=
  match row with
  | [] => false
  | (k, _) :: rest => k == c || rowHas rest c

/-- Cell at a column label (first occurrence; only consulted under a
rowHas guard, mirroring excel_row at a label of the index). -/
def rowGet (row : ProductRow) (c : String) : CellValue :=
  match row with
  | [] => .cna
  | (k, v) :: rest => if k == c then v else rowGet rest c

/-- Embeds _process_mapping_value from src/bcss_api_integration.py.
The error value models the AttributeError that Python raises when the
notes argument is a truthy non-string (a NaN note cell) and the chain
reaches notes.lower(). -/
def process_mapping_value (v : CellValue) (notes : NoteValue) :
    Except String (Option String) :=
  if v == .cna || v == .cstr "Trống" || v == .cstr "" then .ok none
  else
    match v with
    | .cstr s =>
      let ms := pyStrip (lowerStr s)
      if pyIn "support" ms then .ok (some "1")
      else if noteTruthy notes then
        match notes with
        | .nna => .error "AttributeError"
        | .nstr ns =>
          if pyIn "support = có" (lowerStr ns) then
            .ok (some (if ms == "có" || ms == "yes" then "1" else "0"))
          else if pyIn "không bắt buộc" ms then .ok (some "0")
          else .ok (some (pyStrCell v))
      else if pyIn "không bắt buộc" ms then .ok (some "0")
      else .ok (some (pyStrCell v))
    | _ => .ok (some (pyStrCell v))

/-- One price or VAT sub-record of the payload. -/
structure PriceDTO where
  price : PyNum
  fromDate : Option String
  toDate : Option String
  id : Option Int
  deriving DecidableEq, Repr

/-- A produced attribute value: string, integer or JSON null. -/
inductive AttrValue where
  | avStr (s : String)
  | avInt (n : Int)
  | avNull
  deriving DecidableEq, Repr

/-- Models Python str() on an attribute value (str(None) is the word
None). -/
def pyStrAttr : AttrValue → String
  | .avStr s => s
  | .avInt n => toString n
  | .avNull => "None"

/-- One entry of attributeValueList. -/
structure AttributeEntry where
  id : Option Int
  productCategoryAttributeId : Nat
  productCategoryAttributeValueId : String
  attributeValue : AttrValue
  deriving DecidableEq, Repr

/-- The BCSS product payload.  Dict keys that can be absent are Options:
pckCode is only created by the field-mapping loop, and the weight key is
deleted by the transform (none = key absent, some none = key present with
null value). -/
structure Payload where
  productCode : String
  productName : String
  pckCode : Option String
  parentId : Nat
  productUom : String
  weight : Option (Option Nat)
  checkQuantity : Nat
  checkSerial : Nat
  productStatus : Nat
  productDescription : String
  productCategoryId : Nat
  productPriceDTOS : List PriceDTO
  productVatDTOS : List PriceDTO
  attributeValueList : List AttributeEntry
  productDescriptionEn : String
  id : Option Int
  productType : Nat
  deriving DecidableEq, Repr

/-- Embeds _get_default_api_payload. -/
def get_default_api_payload : Payload where
  productCode := ""
  productName := ""
  pckCode := none
  parentId := 561
  productUom := "01"
  weight := some none
  checkQuantity := 1
  checkSerial := 1
  productStatus := 1
  productDescription := ""
  productCategoryId := 101
  productPriceDTOS := [⟨⟨0, 1⟩, none, none, none⟩]
  productVatDTOS := [⟨⟨10, 1⟩, none, none, none⟩]
  attributeValueList := []
  productDescriptionEn := ""
  id := none
  productType := 1

/-- Embeds _get_attribute_mapping: the ten attribute slots in dict
insertion order. -/
def attribute_mapping : List (String × Nat) :=
  [("Dung lượng tốc độ cao", 101),
   ("Loại gói", 102),
   ("eKYC (Xác minh danh tính)", 103),
   ("Hết tốc độ cao giảm xuống", 104),
   ("Chia sẻ Wifi", 105),
   ("Loại SIM", 106),
   ("Phạm vi phủ sóng", 107),
   ("SKUID", 108),
   ("Số ngày sử dụng", 109),
   ("Nhà cung cấp", 110)]

/-- Embeds _get_national_area_mapping: the static national-area
name-to-code table. -/
def national_area_mapping : List (String × Int) :=
  [("Thailand", 21),
   ("Japan", 27),
   ("Taiwan", 32),
   ("Vietnam", 35),
   ("Netherlands", 49),
   ("Belgium", 50),
   ("Spain", 52),
   ("Estonia", 67),
   ("Asia 10 countries", 98),
   ("USA, Canada", 115),
   ("Madagascar", 125),
   ("Brazil", 22),
   ("Egypt", 24),
   ("India", 25),
   ("Philippines", 31),
   ("UAE", 33),
   ("USA", 34),
   ("HongKong", 36),
   ("Malaysia", 38),
   ("Singapore", 39),
   ("Sri Lanka", 43),
   ("Uzbekistan", 44),
   ("Greece", 48),
   ("France", 51),
   ("Hungary", 53),
   ("Croatia", 54),
   ("Italy", 55),
   ("Switzerland", 57),
   ("Czech", 58),
   ("United Kingdom", 60),
   ("Norway", 63),
   ("Portugal", 70),
   ("Luxembourg", 71),
   ("Republic of Ireland", 72),
   ("Iceland", 73),
   ("Turkey", 77),
   ("Liechtenstein", 79),
   ("Kuwait", 81),
   ("Kazakhstan", 84),
   ("Nicaragua", 87),
   ("Peru", 89),
   ("Argentina", 90),
   ("Chile", 91),
   ("Columbia", 92),
   ("Ecuador", 93),
   ("French Guiana", 94),
   ("Mexico", 96),
   ("Canada", 97),
   ("Asia 19 countries", 100),
   ("China Mainland, Macao", 105),
   ("Singapore, Malaysia, Thailand", 113),
   ("South America 11 countries", 161),
   ("Denmark", 61),
   ("Lithuania", 65),
   ("Latvia", 66),
   ("Australia, New Zealand", 102),
   ("Brazil, Chile", 103),
   ("China Mainland, Hong Kong, Macao", 104),
   ("Europe 33 Countries", 106),
   ("Austria", 107),
   ("Indonesia, Singapore, Malaysia, Thailand", 109),
   ("Jordan, Kuwait, Oman", 110),
   ("Singapore, Malaysia, Indonesia", 112),
   ("World Primary 70 Countries", 117),
   ("Saudi Arabia", 118),
   ("Qatar", 119),
   ("New Zealand", 120),
   ("Morocco", 121),
   ("Tunisia", 122),
   ("Seychelles", 123),
   ("Kenya", 124),
   ("South Africa", 126),
   ("Costa Rica", 127),
   ("Macau", 37),
   ("Cambodia", 40),
   ("Mongolia", 30),
   ("New Zealnd", 47),
   ("Slovakia", 59),
   ("Poland", 68),
   ("Malta", 74),
   ("Cyprus", 75),
   ("Jordan", 80),
   ("Russia", 83),
   ("Asia 14 countries", 99),
   ("China Mainland", 23),
   ("Israel", 26),
   ("Korea", 28),
   ("Laos", 29),
   ("Indonesia", 41),
   ("Pakistan", 42),
   ("Kyrgyzstan", 45),
   ("Australia", 46),
   ("Romania", 56),
   ("Sweden", 62),
   ("Finland", 64),
   ("Germany", 69),
   ("Bulgari", 76),
   ("Slovenia", 78),
   ("Oman", 82),
   ("Martinique Island", 85),
   ("El Salvado", 86),
   ("Panama", 88),
   ("Uruguay", 95),
   ("Asia 6 countries", 101),
   ("Hong Kong, Macao", 108),
   ("Russia, Kazakhstan, Uzbekistan, Pakistan", 111),
   ("South America 12 countries", 114),
   ("USA, Mexico", 116)]

/-- Dict .get with the raw name as fallback: the area lookup used for the
coverage-area slot. -/
def nationalAreaGet (a : String) : AttrValue :=
  match national_area_mapping.find? (fun p => p.1 == a) with
  | some p => .avInt p.2
  | none => .avStr a

/-- Raw attribute-value resolution for one slot, embedding the body of the
attribute loop of transform_excel_row_to_api before post-processing
(special cases, fixed literals, fixed-text note, direct lookup, fuzzy
column scan with break on the first match). -/
def resolveAttrRaw (row : ProductRow) (bcssField : String)
    (e : MappingEntry) : Except String AttrValue :=
  match e.excel_mapping with
  | none => .ok (.avStr "")
  | some col =>
    if bcssField == "Chia sẻ Wifi" then
      if rowHas row col then
        .ok (.avStr
          (if pyIn "support" (lowerStr (pyStrCell (rowGet row col))) then "1" else "0"))
      else .ok (.avStr "0")
    else if bcssField == "Phạm vi phủ sóng" then
      if rowHas row col then .ok (nationalAreaGet (pyStrCell (rowGet row col)))
      else .ok (.avStr "")
    else if col == "Không bắt buộc" then .ok (.avStr "0")
    else if col == "SIM outbound" then .ok (.avStr "SIM outbound")
    else if col == "Cái" then .ok (.avStr "Cái")
    else if pyIn "Text cố định" (pyStrNote e.notes) then
      if rowHas row col && notna (rowGet row col)
          && pyStrip (pyStrCell (rowGet row col)) != "" then do
        let v ← process_mapping_value (rowGet row col) e.notes
        .ok (match v with | some s => .avStr s | none => .avNull)
      else .ok (.avStr col)
    else if rowHas row col then do
      let v ← process_mapping_value (rowGet row col) e.notes
      .ok (match v with | some s => .avStr s | none => .avStr "")
    else
      match row.find? (fun kv =>
          pyIn (lowerStr col) (lowerStr kv.1) || pyIn (lowerStr kv.1) (lowerStr col)) with
      | some kv => do
        let v ← process_mapping_value kv.2 e.notes
        .ok (match v with | some s => .avStr s | none => .avStr "")
      | none => .ok (.avStr "")

/-- Post-processing for attribute slot 104 (throttled speed).  The error
value models the ValueError Python would raise on str-to-float failure,
unreachable for ASCII digit strings. -/
def post104 (v : AttrValue) : Except String AttrValue :=
  if v == .avStr "∞" || v == .avStr "-1" then .ok .avNull
  else
    match v with
    | .avInt n => .ok (.avStr (toString n ++ " Kbps"))
    | .avNull => .ok .avNull
    | .avStr s =>
      if pyIsDigit s then
        match pyFloat s with
        | some q => .ok (.avStr (toString q.trunc ++ " Kbps"))
        | none => .error "ValueError"
      else
        let val := pyReplace s " " ""
        if lowerStr val == "1mbps" then .ok (.avStr "1 Mbps")
        else if pyIn "mbps" (lowerStr val) then
          .ok (.avStr (pyReplace (pyReplace s "Mbps" " Mbps") "mbps" " Mbps"))
        else if pyIn "kbps" (lowerStr val) then
          .ok (.avStr (pyReplace (pyReplace s "Kbps" " Kbps") "kbps" " Kbps"))
        else .ok (.avStr s)

/-- Post-processing for attribute slot 106 (SIM type). -/
def post106 (v : AttrValue) : AttrValue :=
  let t := lowerStr (pyStrip (pyStrAttr v))
  if t == "esim" then .avStr "2"
  else if t == "sim card" then .avStr "1"
  else v

/-- Post-processing for attribute slots 107 and 109 (integer coercion; any
exception inside the try block yields None). -/
def post107109 (v : AttrValue) : AttrValue :=
  match v with
  | .avNull => .avNull
  | .avInt n => .avInt n
  | .avStr s =>
    let s := pyStrip s
    if s == "" then .avNull
    else
      match pyFloat s with
      | some q => .avInt q.trunc
      | none => .avNull

/-- All four slot-specific post-processing steps in source order. -/
def postAttr (aid : Nat) (v : AttrValue) : Except String AttrValue := do
  let v1 ← if aid == 104 then post104 v else .ok v
  let v2 := if aid == 106 then post106 v1 else v1
  let v3 := if aid == 107 || aid == 109 then post107109 v2 else v2
  let v4 := if aid == 101 && pyStrip (pyStrAttr v3) == "∞" then .avNull else v3
  .ok v4

/-- The attribute loop: one appended entry per configured attribute slot,
in the declared slot order. -/
def buildAttrList (md : MappingData) (row : ProductRow) :
    List (String × Nat) → Except String (List AttributeEntry)
  | [] => .ok []
  | (fi, aid) :: rest =>
    match lookupMapping md fi with
    | none => buildAttrList md row rest
    | some e => do
      let raw ← resolveAttrRaw row fi e
      let v ← postAttr aid raw
      let tail ← buildAttrList md row rest
      .ok (⟨none, aid, "", v⟩ :: tail)

/-- Value of one simple field mapping (the field_mappings loop body up to
the assignment): none when the field is skipped, some s when the payload
key is assigned s. -/
def simpleFieldValue (md : MappingData) (row : ProductRow) (field : String) :
    Except String (Option String) :=
  match lookupMapping md field with
  | none => .ok none
  | some e =>
    match e.excel_mapping with
    | none => .ok none
    | some col =>
      if rowHas row col then process_mapping_value (rowGet row col) e.notes
      else .ok none

/-- The field_mappings loop of transform_excel_row_to_api, unrolled in
dict insertion order. -/
def applyBasicFields (md : MappingData) (row : ProductRow) (p : Payload) :
    Except String Payload := do
  let v1 ← simpleFieldValue md row "Mã sản phẩm"
  let p := match v1 with | some s => { p with productCode := s } | none => p
  let v2 ← simpleFieldValue md row "Tên sản phẩm"
  let p := match v2 with | some s => { p with productName := s } | none => p
  let v3 ← simpleFieldValue md row "SKY package code"
  let p := match v3 with | some s => { p with pckCode := some s } | none => p
  .ok p

/-- Assignment to payload productPriceDTOS index 0 key price. -/
def setHeadPrice (p : Payload) (q : PyNum) : Payload :=
  { p with productPriceDTOS :=
      match p.productPriceDTOS with
      | [] => []
      | d :: rest => { d with price := q } :: rest }

/-- Assignment to payload productVatDTOS index 0 key price. -/
def setHeadVat (p : Payload) (q : PyNum) : Payload :=
  { p with productVatDTOS :=
      match p.productVatDTOS with
      | [] => []
      | d :: rest => { d with price := q } :: rest }

/-- The price-mapping block (parse failure falls back to 0). -/
def applyPrice (md : MappingData) (row : ProductRow) (p : Payload) : Payload :=
  match lookupMapping md "Giá hàng hóa" with
  | none => p
  | some e =>
    match e.excel_mapping with
    | none => p
    | some col =>
      if rowHas row col then
        let pv := rowGet row col
        if notna pv then
          match pyFloatCell pv with
          | some q => setHeadPrice p q
          | none => setHeadPrice p ⟨0, 1⟩
        else p
      else p

/-- The VAT-mapping block (parse failure falls back to the default 10). -/
def applyVat (md : MappingData) (row : ProductRow) (p : Payload) : Payload :=
  match lookupMapping md "VAT" with
  | none => p
  | some e =>
    match e.excel_mapping with
    | none => p
    | some col =>
      if rowHas row col then
        let pv := rowGet row col
        if notna pv then
          match pyFloatCell pv with
          | some q => setHeadVat p q
          | none => setHeadVat p ⟨10, 1⟩
        else p
      else p

/-- A wall-clock instant, standing in for datetime.now(). -/
structure PyDateTime where
  year : Nat
  month : Nat
  day : Nat
  hour : Nat
  minute : Nat
  second : Nat
  deriving DecidableEq, Repr

/-- Fixed-width zero-padded decimal rendering, most significant digit
first, as strftime renders each field for in-range values. -/
def padNum : Nat → Nat → List Char
  | 0, _ => []
  | w + 1, n => padNum w (n / 10) ++ [Char.ofNat (48 + n % 10)]

/-- Models strftime with the compact format: four-digit year then
two-digit month, day, hour, minute and second, all zero-padded. -/
def strftimeCompact (t : PyDateTime) : String :=
  String.mk (padNum 4 t.year ++ padNum 2 t.month ++ padNum 2 t.day
    ++ padNum 2 t.hour ++ padNum 2 t.minute ++ padNum 2 t.second)

/-- The product-code scan: walk the row columns, remembering the stringified
cell of any column whose upper-cased name contains SKUID and of any column
whose stripped lower-cased name is days (the last matching column wins). -/
def scanCode (row : ProductRow) : String × String :=
  row.foldl
    (fun acc kv =>
      let sk := if pyIn "SKUID" (upperStr kv.1) && notna kv.2 then pyStrCell kv.2 else acc.1
      let dy := if lowerStr (pyStrip kv.1) == "days" && notna kv.2 then pyStrCell kv.2 else acc.2
      (sk, dy))
    ("", "")

/-- The final product-code assignment (Python string truthiness: the empty
string counts as absent). -/
def genProductCode (row : ProductRow) (now : PyDateTime) : String :=
  let (sk, dy) := scanCode row
  if sk != "" && dy != "" then sk ++ "-" ++ dy
  else if sk != "" then sk
  else "SIM-" ++ strftimeCompact now

/-- Embeds transform_excel_row_to_api: default payload, simple fields,
fixed descriptions, weight-key deletion, price, VAT, attribute list,
product code, in source order.  The error value is any exception escaping
the transform (an AttributeError out of _process_mapping_value). -/
def transform_excel_row_to_api (md : MappingData) (row : ProductRow)
    (now : PyDateTime) : Except String Payload := do
  let p0 := get_default_api_payload
  let p1 ← applyBasicFields md row p0
  let p2 := { p1 with
    productDescription := "Thời gian sử dụng là số ngày kể từ ngày kích hoạt",
    productDescriptionEn := "The usage period is the number of days from the activation date.",
    weight := none }
  let p3 := applyPrice md row p2
  let p4 := applyVat md row p3
  let attrs ← buildAttrList md row attribute_mapping
  let p5 := { p4 with attributeValueList := attrs }
  .ok { p5 with productCode := genProductCode row now }

/-- An HTTP response as the requests library presents it. -/
structure HttpResponse where
  statusCode : Nat
  text : String
  hasContent : Bool
  deriving DecidableEq, Repr

/-- Models requests Response.ok: status code below 400. -/
def HttpResponse.respOk (r : HttpResponse) : Bool := r.statusCode < 400

/-- Embeds the APIConfig dataclass of src/excel_api_tool.py. -/
structure APIConfig where
  url : String
  method : String
  headers : List (String × String)
  auth : Option (String × String)
  deriving DecidableEq, Repr

/-- Outcome of one network-level request: a response, or a
requests.RequestException carrying an optional response body. -/
inductive NetOutcome where
  | resp (r : HttpResponse)
  | exn (msg : String) (body : Option String)
  deriving DecidableEq, Repr

/-- An exception escaping send_to_api: the ValueError for an unsupported
verb, or a requests.RequestException (including the HTTPError produced by
raise_for_status on a status of 400 or above). -/
inductive SendError where
  | valueError (msg : String)
  | requestError (msg : String) (body : Option String)
  deriving DecidableEq, Repr

/-- Embeds send_to_api of src/excel_api_tool.py.  The network is the
explicit function net from method and payload to outcome; the second
component lists the requests actually issued. -/
def send_to_api (cfg : APIConfig) (data : Payload)
    (net : String → Payload → NetOutcome) :
    Except SendError HttpResponse × List (String × Payload) :=
  if upperStr cfg.method == "POST" then
    match net "POST" data with
    | .resp r =>
      (if 400 ≤ r.statusCode then .error (.requestError "HTTPError" (some r.text))
       else .ok r, [("POST", data)])
    | .exn m b => (.error (.requestError m b), [("POST", data)])
  else if upperStr cfg.method == "PUT" then
    match net "PUT" data with
    | .resp r =>
      (if 400 ≤ r.statusCode then .error (.requestError "HTTPError" (some r.text))
       else .ok r, [("PUT", data)])
    | .exn m b => (.error (.requestError m b), [("PUT", data)])
  else
    (.error (.valueError ("Unsupported HTTP method: " ++ cfg.method)), [])

/-- Outcome of the per-row send step inside process_excel_file: a returned
response, a requests.RequestException (caught by the inner except), or any
other exception (caught only by the outer except). -/
inductive SendResult where
  | resp (r : HttpResponse)
  | reqExn (msg : String) (body : Option String)
  | fatal (msg : String)
  deriving DecidableEq, Repr

/-- One per-row result record of process_excel_file; dict keys that some
branches omit are Options. -/
structure ProcessResult where
  row : Nat
  product_code : Option String
  status : String
  payload : Option Payload
  response_status : Option Nat
  response_body : Option String
  error : Option String
  deriving DecidableEq, Repr

/-- The body of the per-row loop of process_excel_file: the try block with
its two except clauses.  Returns the appended result and the list of
payloads for which the send step was invoked. -/
def stepRow (mapStep : ProductRow → Except String Payload)
    (sendStep : Payload → SendResult) (dryRun : Bool) (rowNum : Nat)
    (row : ProductRow) : ProcessResult × List Payload :=
  match mapStep row with
  | .error e => (⟨rowNum, none, "failed", none, none, none, some e⟩, [])
  | .ok pl =>
    if dryRun then
      (⟨rowNum, some pl.productCode, "dry_run", some pl, none, none, none⟩, [])
    else
      match sendStep pl with
      | .resp r =>
        (⟨rowNum, some pl.productCode,
          if r.respOk then "success" else "failed", none,
          some r.statusCode,
          if r.hasContent then some r.text else none, none⟩, [pl])
      | .reqExn m b =>
        (⟨rowNum, some pl.productCode, "failed", none, none, b, some m⟩, [pl])
      | .fatal m => (⟨rowNum, none, "failed", none, none, none, some m⟩, [pl])

/-- The row loop of process_excel_file: 0-based iteration index, 1-based
reported row number, rows with a number below startRow skipped before the
try block. -/
def processRowsAux (mapStep : ProductRow → Except String Payload)
    (sendStep : Payload → SendResult) (dryRun : Bool) (startRow : Nat) :
    Nat → List ProductRow → List ProcessResult × List Payload
  | _, [] => ([], [])
  | i, r :: rest =>
    if i + 1 < startRow then
      processRowsAux mapStep sendStep dryRun startRow (i + 1) rest
    else
      let (res, sends) := stepRow mapStep sendStep dryRun (i + 1) r
      let (tailRes, tailSends) :=
        processRowsAux mapStep sendStep dryRun startRow (i + 1) rest
      (res :: tailRes, sends ++ tailSends)

/-- Embeds process_excel_file: map each considered row with
transform_excel_row_to_api and apply the send step unless dryRun.  The
loaded rows and the send effect are explicit parameters. -/
def process_excel_file (md : MappingData) (rows : List ProductRow)
    (sendStep : Payload → SendResult) (dryRun : Bool) (startRow : Nat)
    (now : PyDateTime) : List ProcessResult × List Payload :=
  processRowsAux (fun r => transform_excel_row_to_api md r now) sendStep
    dryRun startRow 0 rows

/-- The mapping configuration built by the repository's unit-test fixture
(test_bcss_integration.py); the numeric VAT mapping cell is rendered as a
string, which the transform treats identically (the label is simply not a
row column). -/
def fixtureMapping : MappingData :=
  [("Mã sản phẩm", ⟨some "SKUID-Days", .nstr "Cột trong file sản phẩm"⟩),
   ("Tên sản phẩm", ⟨some "Product Name Short", .nstr "Cột trong file sản phẩm"⟩),
   ("Nhóm sản phẩm", ⟨some "SIM outbound", .nstr "Giá trị cố định"⟩),
   ("Đơn vị tính", ⟨some "Cái", .nstr "Text cố định"⟩),
   ("SKY package code", ⟨some "Trống", .nna⟩),
   ("Khối lượng", ⟨some "Trống", .nna⟩),
   ("Mô tả tiếng Anh",
     ⟨some "The usage period is the number of days from the activation date.",
      .nstr "Text cố định"⟩),
   ("Mô tả tiếng Việt",
     ⟨some "Thời gian sử dụng là số ngày kể từ ngày kích hoạt", .nstr "Text cố định"⟩),
   ("Số ngày sử dụng", ⟨some "Days", .nstr "Cột trong file sản phẩm"⟩),
   ("Dung lượng tốc độ cao",
     ⟨some "High Speed Data (MB or GB or GB/day)", .nstr "Cột trong file sản phẩm"⟩),
   ("Loại gói", ⟨some "Package type", .nstr "Text cố định"⟩),
   ("eKYC (Xác minh danh tính)", ⟨some "Không bắt buộc", .nstr "Giá trị cố định"⟩),
   ("Hết tốc độ cao giảm xuống",
     ⟨some "Throttled Speed (kbps)", .nstr "Cột trong file sản phẩm"⟩),
   ("Chia sẻ Wifi",
     ⟨some "Hotspot sharing", .nstr "Cột trong file sản phẩm (support = có)"⟩),
   ("Loại SIM", ⟨some "Support eSIM/Sim Card", .nstr "Cột trong file sản phẩm"⟩),
   ("Phạm vi phủ sóng", ⟨some "National Area", .nstr "Cột trong file sản phẩm"⟩),
   ("SKUID", ⟨some "SKUID", .nstr "Cột trong file sản phẩm"⟩),
   ("Nhà cung cấp", ⟨some "Telco", .nstr "Cột trong file sản phẩm"⟩),
   ("Giá hàng hóa", ⟨some "Giá bán 26.5 ( THM đề xuất)", .nstr "Cột trong file sản phẩm"⟩),
   ("VAT", ⟨some "10", .nstr "Text cố định"⟩)]

/-- The sample product row of the repository's unit test. -/
def fixtureRow : ProductRow :=
  [("SKUID", .cstr "TEST001"),
   ("Days", .cstr "30"),
   ("Product Name Short", .cstr "Test SIM Package"),
   ("High Speed Data (MB or GB or GB/day)", .cstr "5GB"),
   ("Package type", .cstr "Prepaid"),
   ("Throttled Speed (kbps)", .cstr "128"),
   ("Hotspot sharing", .cstr "Support"),
   ("Support eSIM/Sim Card", .cstr "eSIM"),
   ("National Area", .cstr "Vietnam"),
   ("Telco", .cstr "Viettel"),
   ("Giá bán 26.5 ( THM đề xuất)", .cstr "50000")]

/-- A fixed instant used by the concrete evaluations. -/
def fixtureNow : PyDateTime := ⟨2024, 1, 2, 3, 4, 5⟩

/-- Attribute value at a slot id in a payload, for the concrete checks. -/
def attrAt (p : Payload) (aid : Nat) : Option AttrValue :=
  (p.attributeValueList.find? (fun e => e.productCategoryAttributeId == aid)).map
    (fun e => e.attributeValue)

example :
    (transform_excel_row_to_api fixtureMapping fixtureRow fixtureNow).map
      (fun p => p.productCode) = .ok "TEST001-30" := by decide

example :
    (transform_excel_row_to_api fixtureMapping fixtureRow fixtureNow).map
      (fun p => p.productName) = .ok "Test SIM Package" := by decide

example :
    (transform_excel_row_to_api fixtureMapping fixtureRow fixtureNow).map
      (fun p => p.productPriceDTOS.map PriceDTO.price) = .ok [⟨50000, 1⟩] := by decide

example :
    (transform_excel_row_to_api fixtureMapping fixtureRow fixtureNow).map
      (fun p => p.attributeValueList.map AttributeEntry.attributeValue)
      = .ok [.avStr "5GB", .avStr "Prepaid", .avStr "0", .avStr "128 Kbps",
             .avStr "1", .avStr "2", .avInt 35, .avStr "TEST001", .avInt 30,
             .avStr "Viettel"] := by decide

/-!  Helper lemmas shared by the claim theorems. -/

/-- Inversion for bind in the Except monad. -/
theorem exceptBindOk {α β : Type} {x : Except String α}
    {f : α → Except String β} {b : β} :
    (x >>= f) = .ok b ↔ ∃ a, x = .ok a ∧ f a = .ok b := by
  cases x <;> simp [Bind.bind, Except.bind]

/-- ASCII digit characters have code points between 48 and 57. -/
theorem digit_bounds (c : Char) (h : c.isDigit = true) :
    48 ≤ c.toNat ∧ c.toNat ≤ 57 := by
  simp [Char.isDigit] at h
  obtain ⟨h1, h2⟩ := h
  rw [UInt32.le_def, BitVec.le_def] at h1 h2
  exact ⟨h1, h2⟩

/-- Lower-casing keeps digit characters unchanged. -/
theorem digit_toLower (c : Char) (h : c.isDigit = true) : c.toLower = c := by
  have hb := digit_bounds c h
  unfold Char.toLower
  rw [if_neg]
  omega

/-- Digit characters are not whitespace. -/
theorem digit_not_ws (c : Char) (h : c.isDigit = true) : c.isWhitespace = false := by
  have hb := digit_bounds c h
  rcases hc : c.isWhitespace with _ | _
  · rfl
  · exfalso
    simp [Char.isWhitespace] at hc
    rcases hc with ((h | h) | h) | h <;> (subst h; revert hb; decide)

example : lowerStr "Mbps" = "mbps" := by decide
example : pyIn "support" "unsupported" = true := by decide
example : pyReplace "1Mbps" "Mbps" " Mbps" = "1 Mbps" := by decide
example : pyReplace "2 Mbps" "Mbps" " Mbps" = "2  Mbps" := by decide
example : pyStrip "  a b " = "a b" := by decide
example : pyIsDigit "128" = true := by decide
example : digitsVal "128".data = 128 := by decide
example : pyFloat "128" = some ⟨128, 1⟩ := by decide
example : pyFloat "-2.5" = some ⟨-25, 10⟩ := by decide
example : pyFloat "1e3" = some ⟨1000, 1⟩ := by decide
example : pyFloat "abc" = none := by decide
example : (pyFloat "30").map PyNum.trunc = some 30 := by decide

/-!  Claim C1. -/

/-- C1 counterexample: a string cell that is not blank, not the
placeholder and not support-marked, together with a NaN note cell (which
the loaded mapping data does pass to the normalizer), makes
_process_mapping_value raise AttributeError instead of returning a
value. -/
theorem c1_counterexample :
    process_mapping_value (.cstr "abc") .nna = .error "AttributeError" := by
  decide

/-- C1 (amended): for every raw cell value and every string note value
(the declared type of the notes parameter), _process_mapping_value returns
a result without raising; every branch yields a value. -/
theorem c1_no_exceptions (v : CellValue) (ns : String) :
    ∃ r, process_mapping_value v (.nstr ns) = .ok r := by
  unfold process_mapping_value
  split
  · exact ⟨none, rfl⟩
  · cases v with
    | cstr s =>
      simp only [noteTruthy]
      split
      · exact ⟨_, rfl⟩
      · split
        · split
          · exact ⟨_, rfl⟩
          · split
            · exact ⟨_, rfl⟩
            · exact ⟨_, rfl⟩
        · split
          · exact ⟨_, rfl⟩
          · exact ⟨_, rfl⟩
    | cint n => exact ⟨_, rfl⟩
    | cna => exact ⟨_, rfl⟩

/-!  Claim C9. -/

/-- C9: send_to_api supports only POST and PUT; any configuration whose
method is case-insensitively neither raises the unsupported-method
ValueError to the caller and issues no request. -/
theorem c9_unsupported_method (cfg : APIConfig) (data : Payload)
    (net : String → Payload → NetOutcome)
    (hp : upperStr cfg.method ≠ "POST") (hq : upperStr cfg.method ≠ "PUT") :
    send_to_api cfg data net
      = (.error (.valueError ("Unsupported HTTP method: " ++ cfg.method)), []) := by
  have h1 : (upperStr cfg.method == "POST") = false := beq_eq_false_iff_ne.mpr hp
  have h2 : (upperStr cfg.method == "PUT") = false := beq_eq_false_iff_ne.mpr hq
  unfold send_to_api
  rw [h1, h2]
  simp

/-- C9 witness: the DELETE verb is rejected without any issued request. -/
theorem c9_witness :
    upperStr "DELETE" ≠ "POST" ∧ upperStr "DELETE" ≠ "PUT" ∧
    send_to_api ⟨"http://x", "DELETE", [], none⟩ get_default_api_payload
        (fun _ _ => .exn "never" none)
      = (.error (.valueError ("Unsupported HTTP method: " ++ "DELETE")), []) :=
  ⟨by decide, by decide,
   c9_unsupported_method ⟨"http://x", "DELETE", [], none⟩ get_default_api_payload
     (fun _ _ => .exn "never" none) (by decide) (by decide)⟩

/-!  Inversion machinery for the transform. -/

/-- The frame of a price or VAT sub-record: everything except the price. -/
def dtoShape (d : PriceDTO) : Option String × Option String × Option Int :=
  (d.fromDate, d.toDate, d.id)

/-- Splitting transform_excel_row_to_api into its stages. -/
theorem transform_ok_iff {md : MappingData} {row : ProductRow}
    {now : PyDateTime} {p : Payload} :
    transform_excel_row_to_api md row now = .ok p ↔
    ∃ p1 attrs, applyBasicFields md row get_default_api_payload = .ok p1 ∧
      buildAttrList md row attribute_mapping = .ok attrs ∧
      p = { applyVat md row (applyPrice md row
              { p1 with
                productDescription :=
                  "Thời gian sử dụng là số ngày kể từ ngày kích hoạt",
                productDescriptionEn :=
                  "The usage period is the number of days from the activation date.",
                weight := none }) with
            attributeValueList := attrs,
            productCode := genProductCode row now } := by
  unfold transform_excel_row_to_api
  constructor
  · intro h
    obtain ⟨p1, h1, h⟩ := exceptBindOk.mp h
    obtain ⟨attrs, h2, h⟩ := exceptBindOk.mp h
    injection h with h
    exact ⟨p1, attrs, h1, h2, h.symm⟩
  · rintro ⟨p1, attrs, h1, h2, rfl⟩
    rw [exceptBindOk]
    refine ⟨p1, h1, ?_⟩
    rw [exceptBindOk]
    exact ⟨attrs, h2, rfl⟩

/-- applyBasicFields only assigns productCode, productName and pckCode. -/
theorem applyBasicFields_frame {md : MappingData} {row : ProductRow}
    {p q : Payload} (h : applyBasicFields md row p = .ok q) :
    q.productPriceDTOS = p.productPriceDTOS ∧
    q.productVatDTOS = p.productVatDTOS ∧
    q.attributeValueList = p.attributeValueList := by
  unfold applyBasicFields at h
  obtain ⟨v1, h1, h⟩ := exceptBindOk.mp h
  obtain ⟨v2, h2, h⟩ := exceptBindOk.mp h
  obtain ⟨v3, h3, h⟩ := exceptBindOk.mp h
  injection h with h
  subst h
  cases v1 <;> cases v2 <;> cases v3 <;> simp

/-- setHeadPrice keeps the price-list frame and the other lists. -/
theorem setHeadPrice_frame (p : Payload) (q : PyNum) :
    (setHeadPrice p q).productPriceDTOS.map dtoShape
        = p.productPriceDTOS.map dtoShape ∧
    (setHeadPrice p q).productVatDTOS = p.productVatDTOS ∧
    (setHeadPrice p q).attributeValueList = p.attributeValueList := by
  cases h : p.productPriceDTOS <;> simp [setHeadPrice, dtoShape, h]

/-- setHeadVat keeps the VAT-list frame and the other lists. -/
theorem setHeadVat_frame (p : Payload) (q : PyNum) :
    (setHeadVat p q).productVatDTOS.map dtoShape
        = p.productVatDTOS.map dtoShape ∧
    (setHeadVat p q).productPriceDTOS = p.productPriceDTOS ∧
    (setHeadVat p q).attributeValueList = p.attributeValueList := by
  cases h : p.productVatDTOS <;> simp [setHeadVat, dtoShape, h]

/-- applyPrice keeps the price-list frame and the other lists. -/
theorem applyPrice_frame (md : MappingData) (row : ProductRow) (p : Payload) :
    (applyPrice md row p).productPriceDTOS.map dtoShape
        = p.productPriceDTOS.map dtoShape ∧
    (applyPrice md row p).productVatDTOS = p.productVatDTOS ∧
    (applyPrice md row p).attributeValueList = p.attributeValueList := by
  unfold applyPrice
  repeat' split
  all_goals try dsimp only
  repeat' split
  all_goals first
    | exact ⟨rfl, rfl, rfl⟩
    | exact setHeadPrice_frame p _

/-- applyVat keeps the VAT-list frame and the other lists. -/
theorem applyVat_frame (md : MappingData) (row : ProductRow) (p : Payload) :
    (applyVat md row p).productVatDTOS.map dtoShape
        = p.productVatDTOS.map dtoShape ∧
    (applyVat md row p).productPriceDTOS = p.productPriceDTOS ∧
    (applyVat md row p).attributeValueList = p.attributeValueList := by
  unfold applyVat
  repeat' split
  all_goals try dsimp only
  repeat' split
  all_goals first
    | exact ⟨rfl, rfl, rfl⟩
    | exact setHeadVat_frame p _

/-- A list whose shape image is the default singleton is a singleton with
null dates. -/
theorem shape_singleton {l : List PriceDTO}
    (h : l.map dtoShape = [(none, none, none)]) :
    ∃ d, l = [d] ∧ d.fromDate = none ∧ d.toDate = none := by
  cases l with
  | nil => simp at h
  | cons d rest =>
    simp [dtoShape] at h
    obtain ⟨⟨hf, ht, _⟩, hr⟩ := h
    exact ⟨d, by simp [hr], hf, ht⟩

/-- Combined price-then-VAT stage frame. -/
theorem priceVat_stage_frame (md : MappingData) (row : ProductRow) (P : Payload) :
    (applyVat md row (applyPrice md row P)).productPriceDTOS.map dtoShape
        = P.productPriceDTOS.map dtoShape ∧
    (applyVat md row (applyPrice md row P)).productVatDTOS.map dtoShape
        = P.productVatDTOS.map dtoShape ∧
    (applyVat md row (applyPrice md row P)).attributeValueList
        = P.attributeValueList := by
  have hP := applyPrice_frame md row P
  have hV := applyVat_frame md row (applyPrice md row P)
  refine ⟨?_, ?_, ?_⟩
  · rw [hV.2.1]; exact hP.1
  · rw [hV.1, hP.2.1]
  · rw [hV.2.2, hP.2.2]

/-!  Claim C2. -/

/-- C2: every payload produced by transform_excel_row_to_api has exactly
one price entry and one VAT entry, both with null fromDate and toDate. -/
theorem c2_price_vat_invariant (md : MappingData) (row : ProductRow)
    (now : PyDateTime) (p : Payload)
    (h : transform_excel_row_to_api md row now = .ok p) :
    (∃ pr, p.productPriceDTOS = [pr] ∧ pr.fromDate = none ∧ pr.toDate = none) ∧
    (∃ vt, p.productVatDTOS = [vt] ∧ vt.fromDate = none ∧ vt.toDate = none) := by
  obtain ⟨p1, attrs, h1, h2, rfl⟩ := transform_ok_iff.mp h
  obtain ⟨hbP, hbV, _⟩ := applyBasicFields_frame h1
  constructor
  · apply shape_singleton
    exact (priceVat_stage_frame md row _).1.trans
      (show List.map dtoShape p1.productPriceDTOS = [(none, none, none)] by
        rw [hbP]; rfl)
  · apply shape_singleton
    exact (priceVat_stage_frame md row _).2.1.trans
      (show List.map dtoShape p1.productVatDTOS = [(none, none, none)] by
        rw [hbV]; rfl)

/-- C2 witness: concrete run on the empty configuration and row. -/
theorem c2_witness :
    ∃ p, transform_excel_row_to_api [] [] fixtureNow = .ok p ∧
      ((∃ pr, p.productPriceDTOS = [pr] ∧ pr.fromDate = none ∧ pr.toDate = none) ∧
       (∃ vt, p.productVatDTOS = [vt] ∧ vt.fromDate = none ∧ vt.toDate = none)) :=
  ⟨_, rfl, c2_price_vat_invariant [] [] fixtureNow _ rfl⟩

/-!  Claim C10. -/

/-- Shape of the attribute list produced by the attribute loop. -/
theorem buildAttrList_spec {md : MappingData} {row : ProductRow} :
    ∀ (fields : List (String × Nat)) (l : List AttributeEntry),
      buildAttrList md row fields = .ok l →
      l.map (fun e => e.productCategoryAttributeId)
          = (fields.filter (fun q => (lookupMapping md q.1).isSome)).map Prod.snd ∧
      ∀ e ∈ l, e.id = none ∧ e.productCategoryAttributeValueId = ""
  | [], l, h => by
    injection h with h
    subst h
    simp
  | (fi, aid) :: rest, l, h => by
    unfold buildAttrList at h
    cases hm : lookupMapping md fi with
    | none =>
      rw [hm] at h
      have ih := buildAttrList_spec rest l h
      refine ⟨?_, ih.2⟩
      rw [List.filter_cons]
      simp only [hm, Option.isSome_none, if_false]
      exact ih.1
    | some e =>
      rw [hm] at h
      obtain ⟨raw, hr, h⟩ := exceptBindOk.mp h
      obtain ⟨v, hv, h⟩ := exceptBindOk.mp h
      obtain ⟨tail, ht, h⟩ := exceptBindOk.mp h
      injection h with h
      subst h
      have ih := buildAttrList_spec rest tail ht
      constructor
      · rw [List.filter_cons]
        simp only [hm, Option.isSome_some, if_true, List.map_cons]
        rw [ih.1]
      · intro x hx
        rcases List.mem_cons.mp hx with hx | hx
        · subst hx; exact ⟨rfl, rfl⟩
        · exact ih.2 x hx

/-- C10: the attribute list has exactly one entry per attribute field
present in the mapping configuration, in the fixed declared order of type
ids 101 through 110, each with null id and empty attribute-value id. -/
theorem c10_attribute_list (md : MappingData) (row : ProductRow)
    (now : PyDateTime) (p : Payload)
    (h : transform_excel_row_to_api md row now = .ok p) :
    p.attributeValueList.map (fun e => e.productCategoryAttributeId)
        = (attribute_mapping.filter
            (fun q => (lookupMapping md q.1).isSome)).map Prod.snd ∧
    ∀ e ∈ p.attributeValueList,
      e.id = none ∧ e.productCategoryAttributeValueId = "" := by
  obtain ⟨p1, attrs, h1, h2, rfl⟩ := transform_ok_iff.mp h
  exact buildAttrList_spec attribute_mapping attrs h2

/-- C10 witness: concrete run on the unit-test fixture. -/
theorem c10_witness :
    ∃ p, transform_excel_row_to_api fixtureMapping fixtureRow fixtureNow = .ok p ∧
      (p.attributeValueList.map (fun e => e.productCategoryAttributeId)
          = (attribute_mapping.filter
              (fun q => (lookupMapping fixtureMapping q.1).isSome)).map Prod.snd ∧
       ∀ e ∈ p.attributeValueList,
         e.id = none ∧ e.productCategoryAttributeValueId = "") :=
  ⟨_, rfl, c10_attribute_list fixtureMapping fixtureRow fixtureNow _ rfl⟩

/-!  Claim C4. -/

/-- Every produced attribute entry comes from its slot's resolution and
post-processing. -/
theorem buildAttrList_mem {md : MappingData} {row : ProductRow} :
    ∀ (fields : List (String × Nat)) (l : List AttributeEntry),
      buildAttrList md row fields = .ok l →
      ∀ e ∈ l, ∃ fi ent raw,
        (fi, e.productCategoryAttributeId) ∈ fields ∧
        lookupMapping md fi = some ent ∧
        resolveAttrRaw row fi ent = .ok raw ∧
        postAttr e.productCategoryAttributeId raw = .ok e.attributeValue
  | [], l, h => by
    injection h with h
    subst h
    intro e he
    exact absurd he (List.not_mem_nil e)
  | (fi, aid) :: rest, l, h => by
    unfold buildAttrList at h
    cases hm : lookupMapping md fi with
    | none =>
      rw [hm] at h
      intro e he
      obtain ⟨fj, ent, raw, hin, rest'⟩ := buildAttrList_mem rest l h e he
      exact ⟨fj, ent, raw, List.mem_cons_of_mem _ hin, rest'⟩
    | some ent =>
      rw [hm] at h
      obtain ⟨raw, hr, h⟩ := exceptBindOk.mp h
      obtain ⟨v, hv, h⟩ := exceptBindOk.mp h
      obtain ⟨tail, ht, h⟩ := exceptBindOk.mp h
      injection h with h
      subst h
      intro e he
      rcases List.mem_cons.mp he with he | he
      · subst he
        exact ⟨fi, ent, raw, List.mem_cons_self _ _, hm, hr, hv⟩
      · obtain ⟨fj, ent', raw', hin, rest'⟩ := buildAttrList_mem rest tail ht e he
        exact ⟨fj, ent', raw', List.mem_cons_of_mem _ hin, rest'⟩

/-- Slot 107 belongs only to the coverage-area field. -/
theorem attr107_field {fi : String} (h : (fi, 107) ∈ attribute_mapping) :
    fi = "Phạm vi phủ sóng" := by
  simp [attribute_mapping, Prod.ext_iff] at h
  rcases h with h|h|h|h|h|h|h|h|h|h <;> simp_all

/-- For slot 107 the combined post-processing is the integer coercion. -/
theorem postAttr_107 (v : AttrValue) : postAttr 107 v = .ok (post107109 v) := rfl

/-- The integer coercion yields an integer or null. -/
theorem post107109_int_or_null (v : AttrValue) :
    (∃ n, post107109 v = .avInt n) ∨ post107109 v = .avNull := by
  cases v with
  | avNull => right; rfl
  | avInt n => left; exact ⟨n, rfl⟩
  | avStr s =>
    unfold post107109
    dsimp only
    split
    · right; rfl
    · cases hp : pyFloat (pyStrip s) with
      | some q => left; exact ⟨q.trunc, rfl⟩
      | none => right; rfl

/-- The coverage-area slot resolution is the table lookup with raw-name
fallback. -/
theorem resolveArea (row : ProductRow) (ent : MappingEntry) (col : String)
    (h : ent.excel_mapping = some col) :
    resolveAttrRaw row "Phạm vi phủ sóng" ent
      = .ok (if rowHas row col then nationalAreaGet (pyStrCell (rowGet row col))
             else .avStr "") := by
  unfold resolveAttrRaw
  rw [h]
  have h1 : ("Phạm vi phủ sóng" == "Chia sẻ Wifi") = false := by decide
  have h2 : ("Phạm vi phủ sóng" == "Phạm vi phủ sóng") = true := by decide
  simp only [h1, h2, Bool.false_eq_true, if_false, if_true]
  split <;> rfl

/-- C4: the coverage-area attribute of every produced payload is an
integer or null, and when the configured column is present in the row it
is exactly the integer coercion of the table lookup (with raw-name
fallback) of the stringified cell. -/
theorem c4_coverage_area (md : MappingData) (row : ProductRow)
    (now : PyDateTime) (p : Payload)
    (h : transform_excel_row_to_api md row now = .ok p) :
    (∀ e ∈ p.attributeValueList, e.productCategoryAttributeId = 107 →
       ((∃ n, e.attributeValue = .avInt n) ∨ e.attributeValue = .avNull)) ∧
    (∀ ent col, lookupMapping md "Phạm vi phủ sóng" = some ent →
       ent.excel_mapping = some col → rowHas row col = true →
       ∀ e ∈ p.attributeValueList, e.productCategoryAttributeId = 107 →
         e.attributeValue
           = post107109 (nationalAreaGet (pyStrCell (rowGet row col)))) := by
  obtain ⟨p1, attrs, h1, h2, rfl⟩ := transform_ok_iff.mp h
  have hmem := buildAttrList_mem attribute_mapping attrs h2
  constructor
  · intro e he h107
    obtain ⟨fi, ent, raw, hin, hlk, hres, hpost⟩ := hmem e he
    rw [h107] at hpost
    rw [postAttr_107] at hpost
    injection hpost with hpost
    rw [← hpost]
    exact post107109_int_or_null raw
  · intro ent col hlk hcol hrow e he h107
    obtain ⟨fi, ent', raw, hin, hlk', hres, hpost⟩ := hmem e he
    rw [h107] at hin hpost
    have hfi := attr107_field hin
    subst hfi
    rw [hlk] at hlk'
    injection hlk' with hlk'
    subst hlk'
    rw [resolveArea row ent col hcol, hrow, if_pos rfl] at hres
    injection hres with hres
    rw [postAttr_107, ← hres] at hpost
    injection hpost with hpost
    exact hpost.symm

/-- C4 witness: the unit-test fixture row, whose coverage-area cell
Vietnam maps to code 35. -/
theorem c4_witness :
    ∃ p, transform_excel_row_to_api fixtureMapping fixtureRow fixtureNow = .ok p ∧
      ((∀ e ∈ p.attributeValueList, e.productCategoryAttributeId = 107 →
         ((∃ n, e.attributeValue = .avInt n) ∨ e.attributeValue = .avNull)) ∧
       (∀ ent col, lookupMapping fixtureMapping "Phạm vi phủ sóng" = some ent →
         ent.excel_mapping = some col → rowHas fixtureRow col = true →
         ∀ e ∈ p.attributeValueList, e.productCategoryAttributeId = 107 →
           e.attributeValue
             = post107109 (nationalAreaGet (pyStrCell (rowGet fixtureRow col))))) :=
  ⟨_, rfl, c4_coverage_area fixtureMapping fixtureRow fixtureNow _ rfl⟩

/-!  Batch-runner machinery for claims C6, C7 and C8. -/

/-- Every per-row result reports the row number it was built for. -/
theorem stepRow_row (ms : ProductRow → Except String Payload)
    (ss : Payload → SendResult) (d : Bool) (n : Nat) (r : ProductRow) :
    (stepRow ms ss d n r).1.row = n := by
  cases hm : ms r with
  | error e => simp [stepRow, hm]
  | ok pl =>
    cases d with
    | true => simp [stepRow, hm]
    | false =>
      cases hs : ss pl with
      | resp rr => simp [stepRow, hm, hs]
      | reqExn m b => simp [stepRow, hm, hs]
      | fatal m => simp [stepRow, hm, hs]

/-- Dry-run steps never invoke the send effect. -/
theorem stepRow_dry_sends (ms : ProductRow → Except String Payload)
    (ss : Payload → SendResult) (n : Nat) (r : ProductRow) :
    (stepRow ms ss true n r).2 = [] := by
  unfold stepRow
  cases ms r <;> rfl

/-- The result list of the row loop: one stepRow result per enumerated row
at or past the start row, in order. -/
theorem processRowsAux_results (ms : ProductRow → Except String Payload)
    (ss : Payload → SendResult) (d : Bool) (s : Nat) :
    ∀ (i : Nat) (rows : List ProductRow),
      (processRowsAux ms ss d s i rows).1
        = ((List.enumFrom (i + 1) rows).filter
            (fun q => decide (s ≤ q.1))).map
            (fun q => (stepRow ms ss d q.1 q.2).1)
  | i, [] => by simp [processRowsAux]
  | i, r :: rest => by
    unfold processRowsAux
    rw [List.enumFrom_cons, List.filter_cons]
    by_cases hc : i + 1 < s
    · rw [if_pos hc]
      have hd : decide (s ≤ i + 1) = false := by
        simp only [decide_eq_false_iff_not]
        omega
      rw [hd]
      simp only [Bool.false_eq_true, if_false]
      exact processRowsAux_results ms ss d s (i + 1) rest
    · rw [if_neg hc]
      have hd : decide (s ≤ i + 1) = true := by
        simp only [decide_eq_true_eq]
        omega
      rw [hd]
      simp only [if_true, List.map_cons]
      cases hstep : stepRow ms ss d (i + 1) r with
      | mk res sends =>
        cases hrec : processRowsAux ms ss d s (i + 1) rest with
        | mk tr ts =>
          dsimp only
          have ih := processRowsAux_results ms ss d s (i + 1) rest
          rw [hrec] at ih
          exact congrArg (List.cons res) ih

/-- Dry runs issue no requests at all. -/
theorem processRowsAux_sends_dry (ms : ProductRow → Except String Payload)
    (ss : Payload → SendResult) (s : Nat) :
    ∀ (i : Nat) (rows : List ProductRow),
      (processRowsAux ms ss true s i rows).2 = []
  | _, [] => rfl
  | i, r :: rest => by
    unfold processRowsAux
    by_cases hc : i + 1 < s
    · rw [if_pos hc]
      exact processRowsAux_sends_dry ms ss s (i + 1) rest
    · rw [if_neg hc]
      cases hstep : stepRow ms ss true (i + 1) r with
      | mk res sends =>
        cases hrec : processRowsAux ms ss true s (i + 1) rest with
        | mk tr ts =>
          dsimp only
          have h1 : sends = [] := by
            have h := stepRow_dry_sends ms ss (i + 1) r
            rw [hstep] at h
            exact h
          have h2 : ts = [] := by
            have h := processRowsAux_sends_dry ms ss s (i + 1) rest
            rw [hrec] at h
            exact h
          rw [h1, h2]
          rfl

/-- Filtering on the index then projecting commutes with projecting then
filtering. -/
theorem filter_fst_map (s : Nat) :
    ∀ (l : List (Nat × ProductRow)),
      (l.filter (fun q => decide (s ≤ q.1))).map Prod.fst
        = (l.map Prod.fst).filter (fun n => decide (s ≤ n))
  | [] => rfl
  | q :: rest => by
    rw [List.filter_cons, List.map_cons, List.filter_cons]
    cases hp : decide (s ≤ q.1) <;>
      simp [hp, filter_fst_map s rest]

/-- The considered row numbers of an n-row run starting at row s are
exactly s through n. -/
theorem filter_range_start (s n : Nat) (h1 : 1 ≤ s) (h2 : s ≤ n) :
    (List.range' 1 n).filter (fun m => decide (s ≤ m))
      = List.range' s (n - s + 1) := by
  have hsplit : List.range' 1 (s - 1) ++ List.range' s (n - s + 1)
      = List.range' 1 n := by
    have h := List.range'_append_1 1 (s - 1) (n - s + 1)
    rw [show 1 + (s - 1) = s by omega, show n - s + 1 + (s - 1) = n by omega] at h
    exact h
  rw [← hsplit, List.filter_append]
  have hA : (List.range' 1 (s - 1)).filter (fun m => decide (s ≤ m)) = [] := by
    rw [List.filter_eq_nil_iff]
    intro a ha
    obtain ⟨i, hi, rfl⟩ := List.mem_range'.mp ha
    simp only [decide_eq_true_eq]
    omega
  have hB : (List.range' s (n - s + 1)).filter (fun m => decide (s ≤ m))
      = List.range' s (n - s + 1) := by
    rw [List.filter_eq_self]
    intro a ha
    obtain ⟨i, hi, rfl⟩ := List.mem_range'.mp ha
    simp only [decide_eq_true_eq]
    omega
  rw [hA, hB, List.nil_append]

/-- A row's indexed entry is listed by the enumeration. -/
theorem enumFrom_get_mem :
    ∀ (k : Nat) (l : List ProductRow) (j : Nat) (hj : j < l.length),
      (k + j, l.get ⟨j, hj⟩) ∈ List.enumFrom k l
  | k, a :: as, 0, _ => by
    rw [List.enumFrom_cons]
    exact List.mem_cons_self _ _
  | k, a :: as, j + 1, hj => by
    rw [List.enumFrom_cons]
    apply List.mem_cons_of_mem
    have h := enumFrom_get_mem (k + 1) as j (by simpa using hj)
    rw [show k + (j + 1) = k + 1 + j by omega]
    exact h

/-!  Claim C6. -/

/-- C6: with n rows and a start row s between 1 and n, the batch produces
exactly one result per remaining row, reporting the 1-based row numbers
s through n in order. -/
theorem c6_start_row (md : MappingData) (sendStep : Payload → SendResult)
    (dryRun : Bool) (now : PyDateTime) (startRow : Nat)
    (rows : List ProductRow) (h1 : 1 ≤ startRow) (h2 : startRow ≤ rows.length) :
    (process_excel_file md rows sendStep dryRun startRow now).1.length
        = rows.length - startRow + 1 ∧
    (process_excel_file md rows sendStep dryRun startRow now).1.map
        ProcessResult.row
      = List.range' startRow (rows.length - startRow + 1) := by
  have hmap : (process_excel_file md rows sendStep dryRun startRow now).1.map
      ProcessResult.row = List.range' startRow (rows.length - startRow + 1) := by
    unfold process_excel_file
    rw [processRowsAux_results, List.map_map]
    have hcomp : (ProcessResult.row ∘ fun q : Nat × ProductRow =>
        (stepRow (fun r => transform_excel_row_to_api md r now)
          sendStep dryRun q.1 q.2).1) = Prod.fst := by
      funext q
      exact stepRow_row _ _ _ _ _
    rw [hcomp, filter_fst_map, List.enumFrom_map_fst]
    simp only [Nat.zero_add]
    exact filter_range_start startRow rows.length h1 h2
  refine ⟨?_, hmap⟩
  have hlen := congrArg List.length hmap
  rw [List.length_map, List.length_range'] at hlen
  exact hlen

/-- C6 witness: three empty rows with start row 2 give results for rows 2
and 3. -/
theorem c6_witness :
    1 ≤ 2 ∧ 2 ≤ ([[], [], []] : List ProductRow).length ∧
    ((process_excel_file [] [[], [], []] (fun _ => .fatal "u") true 2
        fixtureNow).1.length = 2 ∧
     (process_excel_file [] [[], [], []] (fun _ => .fatal "u") true 2
        fixtureNow).1.map ProcessResult.row = [2, 3]) :=
  ⟨by decide, by decide,
   c6_start_row [] (fun _ => .fatal "u") true fixtureNow 2 [[], [], []]
     (by decide) (by decide)⟩

/-!  Claim C7. -/

/-- C7: a row whose mapping raises is recorded as failed with the error
message, a row whose send raises a request exception is recorded as failed
with the message and body, and in all cases the batch still produces one
result per considered row. -/
theorem c7_failure_isolation (md : MappingData)
    (sendStep : Payload → SendResult) (dryRun : Bool) (now : PyDateTime)
    (startRow : Nat) (rows : List ProductRow) (j : Nat)
    (hj : j < rows.length) (hs : startRow ≤ j + 1) :
    (∀ e, transform_excel_row_to_api md (rows.get ⟨j, hj⟩) now = .error e →
       (⟨j + 1, none, "failed", none, none, none, some e⟩ : ProcessResult)
         ∈ (process_excel_file md rows sendStep dryRun startRow now).1) ∧
    (∀ pl m b, transform_excel_row_to_api md (rows.get ⟨j, hj⟩) now = .ok pl →
       sendStep pl = .reqExn m b →
       (⟨j + 1, some pl.productCode, "failed", none, none, b, some m⟩ :
           ProcessResult)
         ∈ (process_excel_file md rows sendStep false startRow now).1) ∧
    (process_excel_file md rows sendStep dryRun startRow now).1.length
       = ((List.range' 1 rows.length).filter
           (fun n => decide (startRow ≤ n))).length := by
  have hq := enumFrom_get_mem 1 rows j hj
  rw [show 1 + j = j + 1 by omega] at hq
  have hmem : ∀ (d : Bool),
      (stepRow (fun r => transform_excel_row_to_api md r now) sendStep d
        (j + 1) (rows.get ⟨j, hj⟩)).1
        ∈ (process_excel_file md rows sendStep d startRow now).1 := by
    intro d
    unfold process_excel_file
    rw [processRowsAux_results]
    simp only [Nat.zero_add]
    exact List.mem_map_of_mem _
      (List.mem_filter.mpr ⟨hq, by simpa using hs⟩)
  refine ⟨?_, ?_, ?_⟩
  · intro e he
    rw [List.get_eq_getElem] at he
    have h := hmem dryRun
    have hst : (stepRow (fun r => transform_excel_row_to_api md r now)
        sendStep dryRun (j + 1) (rows.get ⟨j, hj⟩)).1
        = ⟨j + 1, none, "failed", none, none, none, some e⟩ := by
      simp [stepRow, he]
    rw [hst] at h
    exact h
  · intro pl m b hok hsend
    rw [List.get_eq_getElem] at hok
    have h := hmem false
    have hst : (stepRow (fun r => transform_excel_row_to_api md r now)
        sendStep false (j + 1) (rows.get ⟨j, hj⟩)).1
        = ⟨j + 1, some pl.productCode, "failed", none, none, b, some m⟩ := by
      simp [stepRow, hok, hsend]
    rw [hst] at h
    exact h
  · unfold process_excel_file
    rw [processRowsAux_results]
    simp only [Nat.zero_add]
    rw [List.length_map]
    have h := congrArg List.length
      (filter_fst_map startRow (List.enumFrom 1 rows))
    rw [List.length_map, List.enumFrom_map_fst] at h
    exact h

/-- Mapping configuration for the C7 witness: a NaN note cell makes the
first row's transform raise. -/
def c7md : MappingData := [("Mã sản phẩm", ⟨some "A", .nna⟩)]

/-- Rows for the C7 witness: the first transform raises, the second maps
cleanly. -/
def c7rows : List ProductRow := [[("A", .cstr "v")], []]

/-- Send step for the C7 witness: always raises a request exception. -/
def c7send : Payload → SendResult := fun _ => .reqExn "boom" (some "body")

/-- C7 witness: row 1 fails on mapping, row 2 fails on sending, and both
rows still produce results. -/
theorem c7_witness :
    ((⟨1, none, "failed", none, none, none, some "AttributeError"⟩ :
        ProcessResult)
      ∈ (process_excel_file c7md c7rows c7send false 1 fixtureNow).1) ∧
    (∃ pl, transform_excel_row_to_api c7md ([] : ProductRow) fixtureNow
        = .ok pl ∧
      (⟨2, some pl.productCode, "failed", none, none, some "body", some "boom"⟩ :
          ProcessResult)
        ∈ (process_excel_file c7md c7rows c7send false 1 fixtureNow).1) ∧
    (process_excel_file c7md c7rows c7send false 1 fixtureNow).1.length
       = ((List.range' 1 2).filter (fun n => decide (1 ≤ n))).length :=
  ⟨(c7_failure_isolation c7md c7send false fixtureNow 1 c7rows 0
      (by decide) (by decide)).1 "AttributeError" (by decide),
   ⟨_, rfl,
    (c7_failure_isolation c7md c7send false fixtureNow 1 c7rows 1
      (by decide) (by decide)).2.1 _ "boom" (some "body") rfl rfl⟩,
   (c7_failure_isolation c7md c7send false fixtureNow 1 c7rows 0
      (by decide) (by decide)).2.2⟩

/-!  Claim C8. -/

/-- C8 counterexample: a dry run whose single row makes the transform
raise (NaN note cell) produces a result with status failed, not dry_run,
so not every dry-run result carries status dry_run. -/
theorem c8_counterexample :
    (process_excel_file [("Mã sản phẩm", ⟨some "A", .nna⟩)] [[("A", .cstr "z")]]
        (fun _ => .fatal "unused") true 1 fixtureNow).1.map ProcessResult.status
      = ["failed"] ∧ ("failed" : String) ≠ "dry_run" := by
  constructor
  · decide
  · decide

/-- C8 (amended): a dry run never invokes the send effect, and every
produced result either has status dry_run with the computed payload
attached (transform succeeded) or status failed with an error and no
payload (transform raised). -/
theorem c8_dry_run (md : MappingData) (rows : List ProductRow)
    (sendStep : Payload → SendResult) (now : PyDateTime) (startRow : Nat) :
    (process_excel_file md rows sendStep true startRow now).2 = [] ∧
    ∀ res ∈ (process_excel_file md rows sendStep true startRow now).1,
      (∃ pl, res.payload = some pl ∧ res.status = "dry_run"
         ∧ res.product_code = some pl.productCode) ∨
      (res.status = "failed" ∧ res.payload = none ∧ res.error ≠ none) := by
  constructor
  · exact processRowsAux_sends_dry _ _ _ 0 rows
  · intro res hres
    unfold process_excel_file at hres
    rw [processRowsAux_results] at hres
    obtain ⟨q, hqmem, rfl⟩ := List.mem_map.mp hres
    cases hm : transform_excel_row_to_api md q.2 now with
    | ok pl =>
      left
      refine ⟨pl, ?_, ?_, ?_⟩ <;> simp [stepRow, hm]
    | error e =>
      right
      refine ⟨?_, ?_, ?_⟩ <;> simp [stepRow, hm]

/-- The payload the transform computes for an empty row under the empty
configuration at the fixed instant. -/
def c8pay : Payload :=
  { get_default_api_payload with
    productCode := "SIM-20240102030405",
    productDescription := "Thời gian sử dụng là số ngày kể từ ngày kích hoạt",
    productDescriptionEn :=
      "The usage period is the number of days from the activation date.",
    weight := none }

/-- The dry-run result for that row. -/
def c8res : ProcessResult :=
  ⟨1, some "SIM-20240102030405", "dry_run", some c8pay, none, none, none⟩

/-- C8 witness: one clean row under a dry run yields no sends and a
dry_run result with the payload attached. -/
theorem c8_witness :
    (process_excel_file [] [[]] (fun _ => .fatal "u") true 1 fixtureNow).2
        = [] ∧
    ((∃ pl, c8res.payload = some pl ∧ c8res.status = "dry_run"
        ∧ c8res.product_code = some pl.productCode) ∨
     (c8res.status = "failed" ∧ c8res.payload = none ∧ c8res.error ≠ none)) :=
  ⟨(c8_dry_run [] [[]] (fun _ => .fatal "u") fixtureNow 1).1,
   (c8_dry_run [] [[]] (fun _ => .fatal "u") fixtureNow 1).2 c8res (by decide)⟩

/-!  Claim C5. -/

/-- padNum renders exactly its width in characters. -/
theorem padNum_length : ∀ (w n : Nat), (padNum w n).length = w
  | 0, _ => rfl
  | w + 1, n => by
    rw [padNum, List.length_append, padNum_length w (n / 10)]
    rfl

/-- padNum renders only digit characters. -/
theorem padNum_digits : ∀ (w n : Nat), (padNum w n).all Char.isDigit = true
  | 0, _ => rfl
  | w + 1, n => by
    rw [padNum, List.all_append, padNum_digits w (n / 10)]
    have hm : n % 10 < 10 := Nat.mod_lt _ (by omega)
    have : (Char.ofNat (48 + n % 10)).isDigit = true := by
      interval_cases h : n % 10 <;> decide
    simp [this]

/-- C5 counterexample: a non-null but empty-string SKUID cell together
with a non-null days cell does not produce skuid-days; the code falls
through to the timestamp branch. -/
theorem c5_counterexample :
    notna (.cstr "") = true ∧
    (transform_excel_row_to_api []
        [("SKUID", .cstr ""), ("days", .cstr "30")] fixtureNow).map
      Payload.productCode = .ok "SIM-20240102030405" ∧
    ("SIM-20240102030405" : String) ≠ "" ++ "-" ++ "30" := by
  refine ⟨rfl, by decide, by decide⟩

/-- C5 (amended): the product code is total over rows: scanning the row
columns (last match wins) for a SKUID-containing column and a
days-labelled column with non-null cells whose stringified values are
non-empty, the code is skuid-days when both are found, the skuid alone
when only it is found, and otherwise the SIM- prefix followed by the
14-digit compact timestamp. -/
theorem c5_product_code (md : MappingData) (row : ProductRow)
    (now : PyDateTime) (p : Payload)
    (h : transform_excel_row_to_api md row now = .ok p) :
    ((scanCode row).1 ≠ "" → (scanCode row).2 ≠ "" →
       p.productCode = (scanCode row).1 ++ "-" ++ (scanCode row).2) ∧
    ((scanCode row).1 ≠ "" → (scanCode row).2 = "" →
       p.productCode = (scanCode row).1) ∧
    ((scanCode row).1 = "" →
       p.productCode = "SIM-" ++ strftimeCompact now ∧
       (strftimeCompact now).data.length = 14 ∧
       (strftimeCompact now).data.all Char.isDigit = true) := by
  obtain ⟨p1, attrs, h1, h2, rfl⟩ := transform_ok_iff.mp h
  have hcode : genProductCode row now = genProductCode row now := rfl
  cases hsc : scanCode row with
  | mk sk dy =>
    have hgen : genProductCode row now
        = (if sk != "" && dy != "" then sk ++ "-" ++ dy
           else if sk != "" then sk
           else "SIM-" ++ strftimeCompact now) := by
      unfold genProductCode
      rw [hsc]
    refine ⟨?_, ?_, ?_⟩
    · intro hs hd
      simp only [hsc] at hs hd
      show genProductCode row now = _
      rw [hgen]
      rw [if_pos]
      simp [bne_iff_ne, hs, hd]
    · intro hs hd
      simp only [hsc] at hs hd
      show genProductCode row now = _
      rw [hgen, if_neg, if_pos]
      · simp [bne_iff_ne, hs]
      · subst hd
        simp
    · intro hs
      simp only [hsc] at hs
      subst hs
      refine ⟨?_, ?_, ?_⟩
      · show genProductCode row now = _
        rw [hgen]
        simp
      · show (padNum 4 now.year ++ padNum 2 now.month ++ padNum 2 now.day
            ++ padNum 2 now.hour ++ padNum 2 now.minute
            ++ padNum 2 now.second).length = 14
        simp [List.length_append, padNum_length]
      · show (padNum 4 now.year ++ padNum 2 now.month ++ padNum 2 now.day
            ++ padNum 2 now.hour ++ padNum 2 now.minute
            ++ padNum 2 now.second).all Char.isDigit = true
        simp [List.all_append, padNum_digits]

/-- C5 witness: SKUID TEST001 and days 30 give product code TEST001-30. -/
theorem c5_witness :
    ∃ p, transform_excel_row_to_api []
        [("SKUID", .cstr "TEST001"), ("days", .cstr "30")] fixtureNow = .ok p ∧
      p.productCode = "TEST001" ++ "-" ++ "30" :=
  ⟨_, rfl,
   (c5_product_code [] [("SKUID", .cstr "TEST001"), ("days", .cstr "30")]
      fixtureNow _ rfl).1 (by decide) (by decide)⟩

/-!  Claim C3: string machinery. -/

/-- Rebuilding a string from its characters is the identity. -/
theorem stringMkData : ∀ (s : String), String.mk s.data = s
  | ⟨_⟩ => rfl

/-- Concatenation acts on the character lists. -/
theorem stringMkAppend (a b : List Char) :
    String.mk a ++ String.mk b = String.mk (a ++ b) := rfl

/-- dropWhile is the identity when no element satisfies the predicate. -/
theorem dropWhile_all_false {p : Char → Bool} :
    ∀ (l : List Char), (∀ c ∈ l, p c = false) → l.dropWhile p = l
  | [], _ => rfl
  | c :: r, h => by
    rw [List.dropWhile_cons, h c (List.mem_cons_self c r)]
    simp

/-- takeWhile keeps everything when every element satisfies the
predicate. -/
theorem takeWhile_all_true {p : Char → Bool} :
    ∀ (l : List Char), (∀ c ∈ l, p c = true) → l.takeWhile p = l
  | [], _ => rfl
  | c :: r, h => by
    rw [List.takeWhile_cons, h c (List.mem_cons_self c r)]
    simp only [if_true]
    rw [takeWhile_all_true r (fun x hx => h x (List.mem_cons_of_mem c hx))]

/-- dropWhile drops everything when every element satisfies the
predicate. -/
theorem dropWhile_all_true {p : Char → Bool} :
    ∀ (l : List Char), (∀ c ∈ l, p c = true) → l.dropWhile p = []
  | [], _ => rfl
  | c :: r, h => by
    rw [List.dropWhile_cons, h c (List.mem_cons_self c r)]
    simp only [if_true]
    exact dropWhile_all_true r (fun x hx => h x (List.mem_cons_of_mem c hx))

/-- Stripping is the identity on whitespace-free character lists. -/
theorem stripChars_id (l : List Char)
    (h : ∀ c ∈ l, c.isWhitespace = false) : stripChars l = l := by
  unfold stripChars
  rw [dropWhile_all_false l h]
  rw [dropWhile_all_false l.reverse (fun c hc => h c (List.mem_reverse.mp hc))]
  exact List.reverse_reverse l

/-- A list is a prefix of itself followed by anything. -/
theorem listStartsWith_append :
    ∀ (l t : List Char), listStartsWith l (l ++ t) = true
  | [], _ => rfl
  | c :: r, t => by
    rw [List.cons_append, listStartsWith]
    simp only [beq_self_eq_true, Bool.true_and]
    exact listStartsWith_append r t

/-- A needle is found in any list that ends with it. -/
theorem listContainsSub_suffix :
    ∀ (needle pre : List Char), listContainsSub needle (pre ++ needle) = true
  | needle, [] => by
    cases needle with
    | nil => rfl
    | cons c r =>
      rw [List.nil_append, listContainsSub]
      have h := listStartsWith_append (c :: r) []
      rw [List.append_nil] at h
      rw [h]
      rfl
  | needle, p :: pre => by
    rw [List.cons_append, listContainsSub, listContainsSub_suffix needle pre]
    simp

/-- A needle whose first character is absent from the list is not found. -/
theorem listContainsSub_none (h : Char) (t : List Char) :
    ∀ (cs : List Char), (∀ c ∈ cs, c ≠ h) → listContainsSub (h :: t) cs = false
  | [], _ => rfl
  | c :: r, hc => by
    rw [listContainsSub, listStartsWith]
    have h1 : (h == c) = false :=
      beq_eq_false_iff_ne.mpr (fun he => hc c (List.mem_cons_self c r) he.symm)
    rw [h1, listContainsSub_none h t r
      (fun x hx => hc x (List.mem_cons_of_mem c hx))]
    rfl

/-- Replacement is the identity when the needle's first character is
absent. -/
theorem replaceGo_none (h : Char) (t rep : List Char) :
    ∀ (fuel : Nat) (cs : List Char), (∀ c ∈ cs, c ≠ h) →
      replaceGo (h :: t) rep fuel cs = cs
  | 0, cs, _ => rfl
  | _ + 1, [], _ => rfl
  | fuel + 1, c :: r, hc => by
    rw [replaceGo, listStartsWith]
    have h1 : (h == c) = false :=
      beq_eq_false_iff_ne.mpr (fun he => hc c (List.mem_cons_self c r) he.symm)
    rw [h1]
    simp only [Bool.false_and, Bool.and_false, Bool.false_eq_true, if_false]
    rw [replaceGo_none h t rep fuel r
      (fun x hx => hc x (List.mem_cons_of_mem c hx))]

/-- Replacement of the unique occurrence of the needle: prefix and suffix
free of the needle's first character, needle in the middle. -/
theorem replaceGo_single (h : Char) (t rep : List Char) :
    ∀ (pre suf : List Char) (fuel : Nat),
      (∀ c ∈ pre, c ≠ h) → (∀ c ∈ suf, c ≠ h) →
      (pre ++ h :: (t ++ suf)).length ≤ fuel →
      replaceGo (h :: t) rep fuel (pre ++ h :: (t ++ suf)) = pre ++ rep ++ suf
  | [], suf, fuel, _, hsuf, hfuel => by
    rw [List.nil_append] at hfuel ⊢
    cases fuel with
    | zero => simp at hfuel
    | succ f =>
      rw [replaceGo]
      have hsw : listStartsWith (h :: t) (h :: (t ++ suf)) = true := by
        have hx := listStartsWith_append (h :: t) suf
        rw [List.cons_append] at hx
        exact hx
      rw [hsw]
      simp only [List.isEmpty_cons, Bool.not_false, Bool.true_and,
        Bool.and_true, if_true]
      have hdrop : List.drop ((h :: t).length - 1) (t ++ suf) = suf := by
        simp only [List.length_cons, Nat.add_sub_cancel]
        exact List.drop_left t suf
      rw [hdrop, replaceGo_none h t rep f suf hsuf, List.nil_append]
  | p :: pre, suf, fuel, hpre, hsuf, hfuel => by
    cases fuel with
    | zero => simp at hfuel
    | succ f =>
      rw [List.cons_append, replaceGo, listStartsWith]
      have h1 : (h == p) = false :=
        beq_eq_false_iff_ne.mpr
          (fun he => hpre p (List.mem_cons_self p pre) he.symm)
      rw [h1]
      simp only [Bool.false_and, Bool.and_false, Bool.false_eq_true, if_false]
      rw [replaceGo_single h t rep pre suf f
        (fun x hx => hpre x (List.mem_cons_of_mem p hx)) hsuf
        (by simp at hfuel ⊢; omega)]
      rfl

/-- A digit character differs from any non-digit character. -/
theorem digit_ne {c : Char} (h : c.isDigit = true) {x : Char}
    (hx : x.isDigit = false) : c ≠ x := by
  intro he
  subst he
  rw [h] at hx
  cases hx

/-- Python float parsing of a digit string yields its integer value. -/
theorem pyFloat_digits (s : String) (h : pyIsDigit s = true) :
    pyFloat s = some ⟨(digitsVal s.data : Int), 1⟩ := by
  unfold pyIsDigit at h
  rw [Bool.and_eq_true] at h
  obtain ⟨hne, hall⟩ := h
  rw [List.all_eq_true] at hall
  have hws : ∀ c ∈ s.data, c.isWhitespace = false :=
    fun c hc => digit_not_ws c (hall c hc)
  unfold pyFloat
  rw [stripChars_id s.data hws]
  cases hdata : s.data with
  | nil =>
    rw [hdata] at hne
    simp at hne
  | cons c rest =>
    rw [hdata] at hall
    have hc : c.isDigit = true := hall c (List.mem_cons_self _ _)
    have hsign : parseSign (c :: rest) = (1, c :: rest) := by
      unfold parseSign
      dsimp only
      rw [if_neg, if_neg]
      · intro hb
        exact digit_ne hc (by decide) (eq_of_beq hb)
      · intro hb
        exact digit_ne hc (by decide) (eq_of_beq hb)
    dsimp only
    rw [hsign]
    dsimp only
    rw [takeWhile_all_true (c :: rest) hall, dropWhile_all_true (c :: rest) hall]
    dsimp only
    simp [digitsVal]

/-- The throttle post-processing on a pure digit string appends the Kbps
unit to its parsed integer value. -/
theorem post104_digits (s : String) (h : pyIsDigit s = true) :
    post104 (.avStr s)
      = .ok (.avStr (toString (digitsVal s.data) ++ " Kbps")) := by
  have hall : ∀ c ∈ s.data, c.isDigit = true := by
    have h2 := h
    unfold pyIsDigit at h2
    rw [Bool.and_eq_true, List.all_eq_true] at h2
    exact h2.2
  have hne1 : AttrValue.avStr s ≠ .avStr "∞" := by
    intro he
    injection he with he
    have : ('∞').isDigit = true := by
      apply hall
      rw [he]
      decide
    cases this
  have hne2 : AttrValue.avStr s ≠ .avStr "-1" := by
    intro he
    injection he with he
    have : ('-').isDigit = true := by
      apply hall
      rw [he]
      decide
    cases this
  unfold post104
  rw [beq_eq_false_iff_ne.mpr hne1, beq_eq_false_iff_ne.mpr hne2]
  simp only [Bool.or_self, Bool.false_eq_true, if_false]
  rw [if_pos h, pyFloat_digits s h]
  dsimp only [PyNum.trunc]
  rw [Nat.cast_one, Int.tdiv_one]
  rfl

/-- Prepending a string to a rebuilt character list. -/
theorem mkAppendData (d : String) (l : List Char) :
    String.mk (d.data ++ l) = d ++ String.mk l := by
  rw [← stringMkAppend, stringMkData]

/-- Lower-casing a digit string prefix leaves it unchanged. -/
theorem map_toLower_digits (d : String)
    (hall : d.data.all Char.isDigit = true) :
    d.data.map Char.toLower = d.data := by
  rw [List.all_eq_true] at hall
  calc d.data.map Char.toLower
      = d.data.map id := List.map_congr_left (fun c hc => digit_toLower c (hall c hc))
    _ = d.data := List.map_id _

/-- The throttle post-processing inserts the missing space before Mbps in
an unspaced digits-then-Mbps value. -/
theorem post104_mbps (d : String) (hne : d.data ≠ [])
    (hall : d.data.all Char.isDigit = true) :
    post104 (.avStr (d ++ "Mbps")) = .ok (.avStr (d ++ " Mbps")) := by
  have hdigs : ∀ c ∈ d.data, c.isDigit = true := List.all_eq_true.mp hall
  have hsdata : (d ++ "Mbps").data = d.data ++ ['M', 'b', 'p', 's'] := by
    rw [String.data_append]
  have hne1 : AttrValue.avStr (d ++ "Mbps") ≠ .avStr "∞" := by
    intro he
    injection he with he
    have hM : 'M' ∈ (d ++ "Mbps").data := by
      rw [hsdata]
      exact List.mem_append_right _ (by decide)
    rw [he] at hM
    exact absurd hM (by decide)
  have hne2 : AttrValue.avStr (d ++ "Mbps") ≠ .avStr "-1" := by
    intro he
    injection he with he
    have hM : 'M' ∈ (d ++ "Mbps").data := by
      rw [hsdata]
      exact List.mem_append_right _ (by decide)
    rw [he] at hM
    exact absurd hM (by decide)
  have hdig : pyIsDigit (d ++ "Mbps") = false := by
    unfold pyIsDigit
    rw [String.data_append, List.all_append]
    have h4 : ("Mbps" : String).data.all Char.isDigit = false := by decide
    rw [h4]
    simp
  have hnospace : ∀ c ∈ (d ++ "Mbps").data, c ≠ ' ' := by
    intro c hc
    rw [hsdata] at hc
    rcases List.mem_append.mp hc with h | h
    · exact digit_ne (hdigs c h) (by decide)
    · simp at h
      rcases h with rfl | rfl | rfl | rfl <;> decide
  have hval : pyReplace (d ++ "Mbps") " " "" = d ++ "Mbps" := by
    unfold pyReplace
    rw [show (" " : String).data = ' ' :: [] from rfl,
        show ("" : String).data = [] from rfl,
        replaceGo_none ' ' [] [] _ _ hnospace, stringMkData]
  have hlower : lowerStr (d ++ "Mbps")
      = String.mk (d.data ++ ['m', 'b', 'p', 's']) := by
    unfold lowerStr
    rw [hsdata, List.map_append, map_toLower_digits d hall]
    rfl
  unfold post104
  rw [beq_eq_false_iff_ne.mpr hne1, beq_eq_false_iff_ne.mpr hne2]
  simp only [Bool.or_self, Bool.false_eq_true, if_false]
  rw [hdig]
  simp only [Bool.false_eq_true, if_false]
  rw [hval, hlower]
  by_cases h1 : d.data = ['1']
  · have hd1 : d = "1" := by
      have h2 := congrArg String.mk h1
      rw [stringMkData] at h2
      exact h2.trans (by decide)
    rw [if_pos]
    · rw [hd1]
      decide
    · rw [h1]
      decide
  · rw [if_neg, if_pos]
    · have hrep1 : pyReplace (d ++ "Mbps") "Mbps" " Mbps" = d ++ " Mbps" := by
        unfold pyReplace
        have hgo := replaceGo_single 'M' ['b', 'p', 's'] [' ', 'M', 'b', 'p', 's']
          d.data [] ((d ++ "Mbps").data.length)
          (fun c hc => digit_ne (hdigs c hc) (by decide))
          (fun c hc => absurd hc (List.not_mem_nil c))
          (le_of_eq (by rw [hsdata]; simp))
        show String.mk (replaceGo ('M' :: ['b', 'p', 's'])
            [' ', 'M', 'b', 'p', 's'] (d ++ "Mbps").data.length
            (d.data ++ 'M' :: (['b', 'p', 's'] ++ []))) = d ++ " Mbps"
        rw [hgo, List.append_nil, mkAppendData]
      have hrep2 : pyReplace (d ++ " Mbps") "mbps" " Mbps" = d ++ " Mbps" := by
        unfold pyReplace
        have hfree : ∀ c ∈ (d ++ " Mbps").data, c ≠ 'm' := by
          intro c hc
          rw [String.data_append] at hc
          rcases List.mem_append.mp hc with h | h
          · exact digit_ne (hdigs c h) (by decide)
          · simp at h
            rcases h with rfl | rfl | rfl | rfl | rfl <;> decide
        rw [show ("mbps" : String).data = 'm' :: ['b', 'p', 's'] from rfl,
            replaceGo_none 'm' ['b', 'p', 's'] _ _ _ hfree, stringMkData]
      rw [hrep1, hrep2]
    · unfold pyIn
      exact listContainsSub_suffix ['m', 'b', 'p', 's'] d.data
    · intro he
      have hbe := eq_of_beq he
      have hdata : d.data ++ ['m', 'b', 'p', 's'] = ['1'] ++ ['m', 'b', 'p', 's'] :=
        congrArg String.data hbe
      have hlen : d.data.length = 1 := by
        have h3 := congrArg List.length hdata
        simp only [List.length_append, List.length_cons, List.length_nil] at h3
        omega
      exact h1 ((List.append_inj hdata (by simp [hlen])).1)

/-- The throttle post-processing inserts the missing space before Kbps in
an unspaced digits-then-Kbps value. -/
theorem post104_kbps (d : String) (hne : d.data ≠ [])
    (hall : d.data.all Char.isDigit = true) :
    post104 (.avStr (d ++ "Kbps")) = .ok (.avStr (d ++ " Kbps")) := by
  have hdigs : ∀ c ∈ d.data, c.isDigit = true := List.all_eq_true.mp hall
  have hsdata : (d ++ "Kbps").data = d.data ++ ['K', 'b', 'p', 's'] := by
    rw [String.data_append]
  have hne1 : AttrValue.avStr (d ++ "Kbps") ≠ .avStr "∞" := by
    intro he
    injection he with he
    have hK : 'K' ∈ (d ++ "Kbps").data := by
      rw [hsdata]
      exact List.mem_append_right _ (by decide)
    rw [he] at hK
    exact absurd hK (by decide)
  have hne2 : AttrValue.avStr (d ++ "Kbps") ≠ .avStr "-1" := by
    intro he
    injection he with he
    have hK : 'K' ∈ (d ++ "Kbps").data := by
      rw [hsdata]
      exact List.mem_append_right _ (by decide)
    rw [he] at hK
    exact absurd hK (by decide)
  have hdig : pyIsDigit (d ++ "Kbps") = false := by
    unfold pyIsDigit
    rw [String.data_append, List.all_append]
    have h4 : ("Kbps" : String).data.all Char.isDigit = false := by decide
    rw [h4]
    simp
  have hnospace : ∀ c ∈ (d ++ "Kbps").data, c ≠ ' ' := by
    intro c hc
    rw [hsdata] at hc
    rcases List.mem_append.mp hc with h | h
    · exact digit_ne (hdigs c h) (by decide)
    · simp at h
      rcases h with rfl | rfl | rfl | rfl <;> decide
  have hval : pyReplace (d ++ "Kbps") " " "" = d ++ "Kbps" := by
    unfold pyReplace
    rw [show (" " : String).data = ' ' :: [] from rfl,
        show ("" : String).data = [] from rfl,
        replaceGo_none ' ' [] [] _ _ hnospace, stringMkData]
  have hlower : lowerStr (d ++ "Kbps")
      = String.mk (d.data ++ ['k', 'b', 'p', 's']) := by
    unfold lowerStr
    rw [hsdata, List.map_append, map_toLower_digits d hall]
    rfl
  have hno_m : ∀ c ∈ d.data ++ ['k', 'b', 'p', 's'], c ≠ 'm' := by
    intro c hc
    rcases List.mem_append.mp hc with h | h
    · exact digit_ne (hdigs c h) (by decide)
    · simp at h
      rcases h with rfl | rfl | rfl | rfl <;> decide
  unfold post104
  rw [beq_eq_false_iff_ne.mpr hne1, beq_eq_false_iff_ne.mpr hne2]
  simp only [Bool.or_self, Bool.false_eq_true, if_false]
  rw [hdig]
  simp only [Bool.false_eq_true, if_false]
  rw [hval, hlower]
  rw [if_neg, if_neg, if_pos]
  · have hrep1 : pyReplace (d ++ "Kbps") "Kbps" " Kbps" = d ++ " Kbps" := by
      unfold pyReplace
      have hgo := replaceGo_single 'K' ['b', 'p', 's'] [' ', 'K', 'b', 'p', 's']
        d.data [] ((d ++ "Kbps").data.length)
        (fun c hc => digit_ne (hdigs c hc) (by decide))
        (fun c hc => absurd hc (List.not_mem_nil c))
        (le_of_eq (by rw [hsdata]; simp))
      show String.mk (replaceGo ('K' :: ['b', 'p', 's'])
          [' ', 'K', 'b', 'p', 's'] (d ++ "Kbps").data.length
          (d.data ++ 'K' :: (['b', 'p', 's'] ++ []))) = d ++ " Kbps"
      rw [hgo, List.append_nil, mkAppendData]
    have hrep2 : pyReplace (d ++ " Kbps") "kbps" " Kbps" = d ++ " Kbps" := by
      unfold pyReplace
      have hfree : ∀ c ∈ (d ++ " Kbps").data, c ≠ 'k' := by
        intro c hc
        rw [String.data_append] at hc
        rcases List.mem_append.mp hc with h | h
        · exact digit_ne (hdigs c h) (by decide)
        · simp at h
          rcases h with rfl | rfl | rfl | rfl | rfl <;> decide
      rw [show ("kbps" : String).data = 'k' :: ['b', 'p', 's'] from rfl,
          replaceGo_none 'k' ['b', 'p', 's'] _ _ _ hfree, stringMkData]
    rw [hrep1, hrep2]
  · unfold pyIn
    exact listContainsSub_suffix ['k', 'b', 'p', 's'] d.data
  · unfold pyIn
    rw [show ("mbps" : String).data = 'm' :: ['b', 'p', 's'] from rfl]
    rw [listContainsSub_none 'm' ['b', 'p', 's'] _ hno_m]
    simp
  · intro he
    have hbe := eq_of_beq he
    have hm : 'm' ∈ d.data ++ ['k', 'b', 'p', 's'] := by
      have hdata : d.data ++ ['k', 'b', 'p', 's'] = ("1mbps" : String).data :=
        congrArg String.data hbe
      rw [hdata]
      decide
    exact hno_m 'm' hm rfl

/-- The throttle post-processing does NOT normalize an already-spaced
digits-then-Mbps value: the replacement inserts a second space. -/
theorem post104_mbps_spaced (d : String) (hall : d.data.all Char.isDigit = true)
    (h1 : d ≠ "1") :
    post104 (.avStr (d ++ " Mbps")) = .ok (.avStr (d ++ "  Mbps")) := by
  have hdigs : ∀ c ∈ d.data, c.isDigit = true := List.all_eq_true.mp hall
  have hsdata : (d ++ " Mbps").data = d.data ++ [' ', 'M', 'b', 'p', 's'] := by
    rw [String.data_append]
  have hne1 : AttrValue.avStr (d ++ " Mbps") ≠ .avStr "∞" := by
    intro he
    injection he with he
    have hM : 'M' ∈ (d ++ " Mbps").data := by
      rw [hsdata]
      exact List.mem_append_right _ (by decide)
    rw [he] at hM
    exact absurd hM (by decide)
  have hne2 : AttrValue.avStr (d ++ " Mbps") ≠ .avStr "-1" := by
    intro he
    injection he with he
    have hM : 'M' ∈ (d ++ " Mbps").data := by
      rw [hsdata]
      exact List.mem_append_right _ (by decide)
    rw [he] at hM
    exact absurd hM (by decide)
  have hdig : pyIsDigit (d ++ " Mbps") = false := by
    unfold pyIsDigit
    rw [String.data_append, List.all_append]
    have h4 : (" Mbps" : String).data.all Char.isDigit = false := by decide
    rw [h4]
    simp
  have hval : pyReplace (d ++ " Mbps") " " ""
      = String.mk (d.data ++ ['M', 'b', 'p', 's']) := by
    unfold pyReplace
    rw [hsdata]
    rw [show d.data ++ [' ', 'M', 'b', 'p', 's']
        = d.data ++ ' ' :: ([] ++ ['M', 'b', 'p', 's']) from by simp]
    rw [show (" " : String).data = ' ' :: [] from rfl,
        show ("" : String).data = [] from rfl]
    rw [replaceGo_single ' ' [] [] d.data ['M', 'b', 'p', 's'] _
        (fun c hc => digit_ne (hdigs c hc) (by decide))
        (by intro c hc; simp at hc; rcases hc with rfl | rfl | rfl | rfl <;> decide)
        (le_of_eq rfl)]
    rw [List.append_nil]
  have hlower : lowerStr (String.mk (d.data ++ ['M', 'b', 'p', 's']))
      = String.mk (d.data ++ ['m', 'b', 'p', 's']) := by
    unfold lowerStr
    show String.mk ((d.data ++ ['M', 'b', 'p', 's']).map Char.toLower) = _
    rw [List.map_append, map_toLower_digits d hall]
    rfl
  have hd1 : d.data ≠ ['1'] := by
    intro hD
    apply h1
    have h2 := congrArg String.mk hD
    rw [stringMkData] at h2
    exact h2.trans (by decide)
  unfold post104
  rw [beq_eq_false_iff_ne.mpr hne1, beq_eq_false_iff_ne.mpr hne2]
  simp only [Bool.or_self, Bool.false_eq_true, if_false]
  rw [hdig]
  simp only [Bool.false_eq_true, if_false]
  rw [hval, hlower]
  rw [if_neg, if_pos]
  · have hrep1 : pyReplace (d ++ " Mbps") "Mbps" " Mbps"
        = d ++ "  Mbps" := by
      unfold pyReplace
      rw [hsdata]
      rw [show d.data ++ [' ', 'M', 'b', 'p', 's']
          = (d.data ++ [' ']) ++ 'M' :: (['b', 'p', 's'] ++ []) from by simp]
      rw [show ("Mbps" : String).data = 'M' :: ['b', 'p', 's'] from rfl,
          show (" Mbps" : String).data = [' ', 'M', 'b', 'p', 's'] from rfl]
      rw [replaceGo_single 'M' ['b', 'p', 's'] [' ', 'M', 'b', 'p', 's']
          (d.data ++ [' ']) [] _
          (by
            intro c hc
            rcases List.mem_append.mp hc with h | h
            · exact digit_ne (hdigs c h) (by decide)
            · simp at h
              subst h
              decide)
          (fun c hc => absurd hc (List.not_mem_nil c))
          (le_of_eq rfl)]
      rw [List.append_nil,
          show (d.data ++ [' ']) ++ [' ', 'M', 'b', 'p', 's']
            = d.data ++ [' ', ' ', 'M', 'b', 'p', 's'] from by simp,
          mkAppendData]
    have hrep2 : pyReplace (d ++ "  Mbps") "mbps" " Mbps" = d ++ "  Mbps" := by
      unfold pyReplace
      have hfree : ∀ c ∈ (d ++ "  Mbps").data, c ≠ 'm' := by
        intro c hc
        rw [String.data_append] at hc
        rcases List.mem_append.mp hc with h | h
        · exact digit_ne (hdigs c h) (by decide)
        · simp at h
          rcases h with rfl | rfl | rfl | rfl | rfl | rfl <;> decide
      rw [show ("mbps" : String).data = 'm' :: ['b', 'p', 's'] from rfl,
          replaceGo_none 'm' ['b', 'p', 's'] _ _ _ hfree, stringMkData]
    rw [hrep1, hrep2]
  · unfold pyIn
    exact listContainsSub_suffix ['m', 'b', 'p', 's'] d.data
  · intro he
    have hbe := eq_of_beq he
    have hdata : d.data ++ ['m', 'b', 'p', 's'] = ['1'] ++ ['m', 'b', 'p', 's'] :=
      congrArg String.data hbe
    have hlen : d.data.length = 1 := by
      have h3 := congrArg List.length hdata
      simp only [List.length_append, List.length_cons, List.length_nil] at h3
      omega
    exact hd1 ((List.append_inj hdata (by simp [hlen])).1)

/-- For slot 104 the combined post-processing is the throttle rule. -/
theorem postAttr_104 (v : AttrValue) : postAttr 104 v = post104 v := by
  unfold postAttr
  cases h : post104 v with
  | error e => simp [h, Bind.bind, Except.bind]
  | ok v1 => simp [h, Bind.bind, Except.bind]

/-- C3 counterexample: the already-spaced throttle value 2 Mbps is not
normalized; the replacement inserts a second space, so the result is not
of the claimed two-token n-space-Mbps form. -/
theorem c3_counterexample :
    postAttr 104 (.avStr "2 Mbps") = .ok (.avStr "2  Mbps") ∧
    ("2  Mbps" : String) ≠ "2" ++ " Mbps" := by
  constructor
  · decide
  · decide

/-- C3 (amended): the throttle post-processing sends the sentinels to
null; a digit string to its parsed value followed by the Kbps unit; an
unspaced digits-Mbps or digits-Kbps value to the spaced form; and an
already-spaced digits-Mbps value (other than 1 Mbps, which a special case
rebuilds verbatim) to a double-spaced form, not a normalized one. -/
theorem c3_throttle_postprocessing :
    (postAttr 104 (.avStr "∞") = .ok .avNull) ∧
    (postAttr 104 (.avStr "-1") = .ok .avNull) ∧
    (∀ s : String, pyIsDigit s = true →
       postAttr 104 (.avStr s)
         = .ok (.avStr (toString (digitsVal s.data) ++ " Kbps"))) ∧
    (∀ d : String, d.data ≠ [] → d.data.all Char.isDigit = true →
       postAttr 104 (.avStr (d ++ "Mbps")) = .ok (.avStr (d ++ " Mbps"))) ∧
    (∀ d : String, d.data ≠ [] → d.data.all Char.isDigit = true →
       postAttr 104 (.avStr (d ++ "Kbps")) = .ok (.avStr (d ++ " Kbps"))) ∧
    (∀ d : String, d.data.all Char.isDigit = true → d ≠ "1" →
       postAttr 104 (.avStr (d ++ " Mbps")) = .ok (.avStr (d ++ "  Mbps"))) := by
  refine ⟨by decide, by decide, ?_, ?_, ?_, ?_⟩
  · intro s h
    rw [postAttr_104]
    exact post104_digits s h
  · intro d hne hall
    rw [postAttr_104]
    exact post104_mbps d hne hall
  · intro d hne hall
    rw [postAttr_104]
    exact post104_kbps d hne hall
  · intro d hall h1
    rw [postAttr_104]
    exact post104_mbps_spaced d hall h1

/-- C3 witness: the spec's own examples, 128 becoming 128 Kbps and 1Mbps
becoming 1 Mbps. -/
theorem c3_witness :
    pyIsDigit "128" = true ∧
    postAttr 104 (.avStr "128")
      = .ok (.avStr (toString (digitsVal "128".data) ++ " Kbps")) ∧
    ("1" : String).data ≠ [] ∧
    postAttr 104 (.avStr ("1" ++ "Mbps")) = .ok (.avStr ("1" ++ " Mbps")) :=
  ⟨by decide,
   c3_throttle_postprocessing.2.2.1 "128" (by decide),
   by decide,
   c3_throttle_postprocessing.2.2.2.1 "1" (by decide) (by decide)⟩
